import Mathlib

/-!
Verification of the running test model (`robot/running/model.py`).

The Python classes are shallowly embedded: pure methods become Lean
functions, methods raising `DataError`/`VariableError` return `Except`,
and object attributes become structure fields.  External collaborators
(the variable store's `replace_string`, the embedded-argument matcher,
`create_fixture`, the base-model serialization helpers) are modelled
from the specification where their code is outside this repository;
each such definition is marked in its doc comment.

The file is organised as definitions first, theorems second.
-/

namespace RobotRunning

/-! ## Definitions -/

/-! ### Strings -/

/-- ASCII model of Python's `str.upper()`: upper-case each character. -/
def supper (s : String) : String := ⟨s.data.map Char.toUpper⟩

/-- ASCII model of Python's `str.lower()`: lower-case each character. -/
def slower (s : String) : String := ⟨s.data.map Char.toLower⟩

/-- `a` occurs as a contiguous substring of `b`. -/
def strInfix (a b : String) : Prop := a.data <:+: b.data

/-! ### C1: `Var._get_scope` -/

/-- The accepted scope names, upper-cased, as listed in the source's
error message: GLOBAL, SUITE, TEST, LOCAL (TASK is handled separately). -/
def acceptedScopes : List String := ["GLOBAL", "SUITE", "TEST", "LOCAL"]

/-- `Var._get_scope(self, variables)` from `robot/running/model.py`.

The variable store is abstracted to its `replace_string` operation
(`String → Except String String`): variable substitution that may raise
a `DataError` carrying a message.  An absent (`None`) or empty scope
token is falsy in Python (`if not self.scope`), hence `none` and
`some ""` both resolve to the local store.  Any `DataError` raised
inside the `try` block - from substitution or from the explicit
invalid-value raise - is re-wrapped with the `Invalid VAR scope: `
prefix. -/
def getScope (replaceString : String → Except String String)
    (scope : Option String) : Except String String :=
  match scope with
  | none => .ok "local"
  | some s =>
    if s = "" then .ok "local"
    else
      match replaceString s with
      | .error e => .error ("Invalid VAR scope: " ++ e)
      | .ok sc =>
        if supper sc = "TASK" then .ok "test"
        else if supper sc ∈ acceptedScopes then .ok (slower sc)
        else
          .error ("Invalid VAR scope: Value '" ++ sc ++
            "' is not accepted. Valid values are 'GLOBAL', 'SUITE', 'TEST', 'TASK' and 'LOCAL'.")

/-! ### C8/C10: derived `source` attributes

The ownership/parent chain of the model, as far as `source` derivation
is concerned.  A `TestSuite` stores an explicit (optional) source path;
a `ResourceFile` stores an optional explicit path (`_source`); body
items and branches (the `WithSource` mixin), test cases, user keywords,
variables and imports only hold a parent/owner link.  `none` links
model Python `None`. -/

inductive SrcNode where
  | suite (source : Option String) (parent : Option SrcNode)
  | resource (stored : Option String) (owner : Option SrcNode)
  | bodyItem (parent : Option SrcNode)
  | testCase (parent : Option SrcNode)
  | userKeyword (owner : Option SrcNode)
  | variableNode (owner : Option SrcNode)
  | importNode (owner : Option SrcNode)

/-- The `source` property of each class:

* `TestSuite.source` is the stored attribute (modelled from the spec:
  the suite carries its own source path);
* `ResourceFile.source` (lines 731-737): the stored `_source` when set,
  else the owner's source, else `None`;
* `WithSource.source` (lines 75-77), `TestCase` (base model),
  `UserKeyword.source` (lines 902-904), `Variable.source` (698-700) and
  `Import.source` (1029-1031): the parent's/owner's source, `None`
  without a parent/owner. -/
def sourceOf : SrcNode → Option String
  | .suite src _ => src
  | .resource (some p) _ => some p
  | .resource none (some o) => sourceOf o
  | .resource none none => none
  | .bodyItem (some p) => sourceOf p
  | .bodyItem none => none
  | .testCase (some p) => sourceOf p
  | .testCase none => none
  | .userKeyword (some o) => sourceOf o
  | .userKeyword none => none
  | .variableNode (some o) => sourceOf o
  | .variableNode none => none
  | .importNode (some o) => sourceOf o
  | .importNode none => none

/-- Python `pathlib` model: the final path component (`Path.name`). -/
def pathName (p : String) : String := (p.splitOn "/").getLastD ""

/-- Python `pathlib` model: `Path.stem`, the final component without its
last suffix.  A suffix exists when the last dot of the component is
neither its first nor its last character. -/
def pathStem (p : String) : String :=
  let n := pathName p
  let cs := n.data
  match cs.reverse.findIdx? (fun c => c == '.') with
  | none => n
  | some j =>
    let i := cs.length - 1 - j
    if 0 < i ∧ i < cs.length - 1 then ⟨cs.take i⟩ else n

/-- `ResourceFile`, as far as `source`/`name` derivation is concerned:
the stored `_source` attribute and the owning suite (`None` when the
resource file is stand-alone). -/
structure ResourceFileM where
  stored : Option String
  owner : Option SrcNode

/-- `ResourceFile.source` (lines 731-737): stored path when set, else
the owner's source, else `None`. -/
def ResourceFileM.source (r : ResourceFileM) : Option String :=
  match r.stored with
  | some p => some p
  | none =>
    match r.owner with
    | some o => sourceOf o
    | none => none

/-- `ResourceFile.name` (lines 745-754): `None` if the resource file is
part of a suite (has an owner) or has no `source`; the stem of the
source file otherwise. -/
def ResourceFileM.name (r : ResourceFileM) : Option String :=
  if r.owner.isSome then none
  else
    match r.source with
    | none => none
    | some p => some (pathStem p)

/-! ### C4/C5: `run` of the statement nodes -/

/-- Outcome of running a node: normal completion, a `DataError` (with
its `syntax` flag), a `VariableError`, or one of the jump signals
`ReturnFromKeyword`, `ContinueLoop`, `BreakLoop`. -/
inductive RunOutcome where
  | passed
  | dataError (msg : String) (isSyntax : Bool)
  | variableError (msg : String)
  | returnFrom (values : List String)
  | continueLoop
  | breakLoop
deriving DecidableEq

/-- A mutation of a variable store: `set_<scope>(name, value)`. -/
structure StoreSet where
  scope : String
  name : String
  value : String
deriving DecidableEq

/-- Observable result of a node's `run`: whether execution passed
through the `StatusReporter` wrapper, the store mutations performed,
and the outcome. -/
structure RunResult where
  reported : Bool
  effects : List StoreSet
  outcome : RunOutcome
deriving DecidableEq

/-- The `Var` node's own data. -/
structure VarN where
  name : String
  value : List String
  scope : Option String
  separator : Option String
  lineno : Option Nat
  error : Option String
deriving DecidableEq

/-- The parts of the execution context used by the statement runs: the
`dry_run` flag, the store's `replace_string`, and
`VariableResolver.from_variable(self).resolve(context.variables)`
abstracted to a function of the node that may raise `DataError`. -/
structure Ctx where
  dryRun : Bool
  replaceString : String → Except String String
  resolveValue : VarN → Except String String

/-- `Var.run` (lines 287-300).  Every path is wrapped in
`StatusReporter` (`reported := true`).  With `run` true: a pre-recorded
`error` raises `DataError(error, syntax=True)` first; in dry-run mode
nothing else happens; otherwise the scope is resolved (`_get_scope`,
whose `DataError` propagates), the value is resolved and assigned, and
a `DataError` from resolution or assignment is re-raised as
`VariableError("Setting variable '<name>' failed: <err>")`. -/
def VarN.runM (v : VarN) (ctx : Ctx) (runFlag : Bool) : RunResult :=
  if runFlag then
    match v.error with
    | some e => ⟨true, [], .dataError e true⟩
    | none =>
      if ctx.dryRun then ⟨true, [], .passed⟩
      else
        match getScope ctx.replaceString v.scope with
        | .error e => ⟨true, [], .dataError e false⟩
        | .ok scope =>
          match ctx.resolveValue v with
          | .error err => ⟨true, [], .variableError
              ("Setting variable '" ++ v.name ++ "' failed: " ++ err)⟩
          | .ok val => ⟨true, [⟨scope, v.name, val⟩], .passed⟩
  else ⟨true, [], .passed⟩

/-- `Return.run` (lines 337-343): wrapped in `StatusReporter`; with
`run` true, a pre-recorded error raises `DataError(..., syntax=True)`,
otherwise `ReturnFromKeyword(values)` is raised unless in dry-run. -/
def returnRun (values : List String) (error : Option String)
    (dryRun runFlag : Bool) : RunResult :=
  if runFlag then
    match error with
    | some e => ⟨true, [], .dataError e true⟩
    | none => if dryRun then ⟨true, [], .passed⟩ else ⟨true, [], .returnFrom values⟩
  else ⟨true, [], .passed⟩

/-- `Continue.run` (lines 365-371): as `Return.run` but raising
`ContinueLoop()`. -/
def continueRun (error : Option String) (dryRun runFlag : Bool) : RunResult :=
  if runFlag then
    match error with
    | some e => ⟨true, [], .dataError e true⟩
    | none => if dryRun then ⟨true, [], .passed⟩ else ⟨true, [], .continueLoop⟩
  else ⟨true, [], .passed⟩

/-- `Break.run` (lines 393-399): as `Continue.run` but raising
`BreakLoop()`. -/
def breakRun (error : Option String) (dryRun runFlag : Bool) : RunResult :=
  if runFlag then
    match error with
    | some e => ⟨true, [], .dataError e true⟩
    | none => if dryRun then ⟨true, [], .passed⟩ else ⟨true, [], .breakLoop⟩
  else ⟨true, [], .passed⟩

/-- `Error.run` (lines 422-425): wrapped in `StatusReporter`; with
`run` true it raises `DataError(self.error)` unconditionally - also in
dry-run mode. -/
def errorRun (error : String) (runFlag : Bool) : RunResult :=
  if runFlag then ⟨true, [], .dataError error false⟩ else ⟨true, [], .passed⟩

/-- Modelled from the spec: the shared guard of the composite-node
runners (`For`/`While`/`If`/`Try` delegate to `bodyrunner.py`, outside
this repository's source): "execute their specific algorithm only if
`run` is true ... and the node has no pre-recorded structural error
(else: fail immediately with that error)".  `execute` is the
node-specific algorithm producing effects and an outcome. -/
def runnerGuard (error : Option String) (runFlag : Bool)
    (execute : Unit → List StoreSet × RunOutcome) : RunResult :=
  if runFlag then
    match error with
    | some e => ⟨true, [], .dataError e true⟩
    | none =>
      let r := execute ()
      ⟨true, r.1, r.2⟩
  else ⟨true, [], .passed⟩

/-! ### C6: `UserKeyword.matches` -/

/-- The opening brace character, written via `Char.ofNat`. -/
def openBrace : Char := Char.ofNat 123

/-- The closing brace character, written via `Char.ofNat`. -/
def closeBrace : Char := Char.ofNat 125

/-- A segment of an embedded-argument keyword name: literal text or a
placeholder. -/
inductive NameSeg where
  | lit (s : String)
  | placeholder (name : String)
deriving DecidableEq

/-- Find the first `${` of a character list: the characters before it
and those after it, or `none` when there is no `${`. -/
def findOpen : List Char → Option (List Char × List Char)
  | c :: d :: rest =>
    if c = '$' ∧ d = openBrace then some ([], rest)
    else (findOpen (d :: rest)).map (fun pr => (c :: pr.1, pr.2))
  | _ => none

/-- Find the first closing brace: the characters before it and those
after it, or `none` when there is none. -/
def findClose : List Char → Option (List Char × List Char)
  | [] => none
  | c :: rest =>
    if c = closeBrace then some ([], rest)
    else (findClose rest).map (fun pr => (c :: pr.1, pr.2))

/-- Modelled from the spec: parse an embedded keyword name into literal
and placeholder segments (fuelled recursion over the characters). -/
def parseRest : Nat → List Char → List NameSeg
  | 0, cs => if cs.isEmpty then [] else [.lit ⟨cs⟩]
  | fuel + 1, cs =>
    match findOpen cs with
    | none => if cs.isEmpty then [] else [.lit ⟨cs⟩]
    | some (pre, afterOpen) =>
      match findClose afterOpen with
      | none => if cs.isEmpty then [] else [.lit ⟨cs⟩]
      | some (pname, rest) =>
        (if pre.isEmpty then [] else [.lit ⟨pre⟩]) ++
          [.placeholder ⟨pname⟩] ++ parseRest fuel rest

/-- Modelled from the spec: `EmbeddedArguments.from_name` - a name
containing `${placeholder}` syntax compiles, once, into a segment
matcher; a name without such syntax yields `None`. -/
def fromName (name : String) : Option (List NameSeg) :=
  match findOpen name.data with
  | none => none
  | some (_, afterOpen) =>
    match findClose afterOpen with
    | none => none
    | some _ => some (parseRest name.data.length name.data)

/-- Modelled from the spec: the embedded-argument matcher - literal
segments must match exactly, placeholder segments match any run of
characters of the call-site text. -/
def matchSegs : List NameSeg → List Char → Bool
  | [], cs => cs.isEmpty
  | .lit s :: rest, cs =>
    if s.data.isPrefixOf cs then matchSegs rest (cs.drop s.data.length) else false
  | .placeholder _ :: rest, cs =>
    (List.range (cs.length + 1)).any (fun k => matchSegs rest (cs.drop k))

/-- Modelled from the spec: `eq(self.name, name, ignore='_')` - case-
and underscore-insensitive literal-name comparison. -/
def normName (s : String) : String := slower ⟨s.data.filter (fun c => !(c == '_'))⟩

/-- Case/underscore-insensitive equality of keyword names. -/
def literalEq (a b : String) : Bool := normName a == normName b

/-- `UserKeyword`, as far as name matching is concerned: the stored
name and the `embedded` attribute recomputed by the `name` setter. -/
structure UKMatch where
  name : String
  embedded : Option (List NameSeg)
deriving DecidableEq

/-- The `name` setter (lines 872-875): stores the name and recomputes
`self.embedded = EmbeddedArguments.from_name(name)` once, at
assignment time. -/
def UKMatch.setName (_uk : UKMatch) (n : String) : UKMatch :=
  { name := n, embedded := fromName n }

/-- `UserKeyword.matches` (lines 956-959): embedded-pattern match when
the stored `embedded` matcher exists, case/underscore-insensitive
literal comparison otherwise. -/
def UKMatch.matches (uk : UKMatch) (callName : String) : Bool :=
  match uk.embedded with
  | some segs => matchSegs segs callName.data
  | none => literalEq uk.name callName

/-! ### C9: lazily materialised setup/teardown -/

/-- A fixture keyword slot value: its name (`None` for the empty
placeholder fixture that `create_fixture` builds) and its type. -/
structure KwFixture where
  name : Option String
  ktype : String
deriving DecidableEq

/-- Modelled from the spec / `robot.model`: `bool(keyword)` - a keyword
is truthy when its name is not `None`. -/
def kwTruthy (k : KwFixture) : Bool := k.name.isSome

/-- Modelled from the spec / `robot.model.create_fixture`: a `None`
argument materialises an empty `Keyword` of the requested type. -/
def createFixture (given : Option KwFixture) (ktype : String) : KwFixture :=
  match given with
  | some k => { k with ktype := ktype }
  | none => { name := none, ktype := ktype }

/-- `UserKeyword`'s `_setup`/`_teardown` slots (`None` until
materialised). -/
structure UKFix where
  setupSlot : Option KwFixture
  teardownSlot : Option KwFixture
deriving DecidableEq

/-- `has_setup` (lines 924-930): `bool(self._setup)`, in state-passing
form to make explicit that the query does not touch the slot. -/
def UKFix.hasSetupS (uk : UKFix) : Bool × UKFix :=
  (match uk.setupSlot with | none => false | some k => kwTruthy k, uk)

/-- `has_teardown` (lines 943-954): `bool(self._teardown)`. -/
def UKFix.hasTeardownS (uk : UKFix) : Bool × UKFix :=
  (match uk.teardownSlot with | none => false | some k => kwTruthy k, uk)

/-- The `setup` property (lines 910-922): on access with an empty slot
it materialises `create_fixture(None, ..., SETUP)` into the slot. -/
def UKFix.getSetup (uk : UKFix) : KwFixture × UKFix :=
  match uk.setupSlot with
  | none =>
    let k := createFixture none "SETUP"
    (k, { uk with setupSlot := some k })
  | some k => (k, uk)

/-- The `teardown` property (lines 932-941). -/
def UKFix.getTeardown (uk : UKFix) : KwFixture × UKFix :=
  match uk.teardownSlot with
  | none =>
    let k := createFixture none "TEARDOWN"
    (k, { uk with teardownSlot := some k })
  | some k => (k, uk)

/-! ### C2/C3/C7: serialization to and from records

`to_dict` produces a Python dict whose values are strings, integers,
tuples of strings, one nested dict (fixtures) or lists of nested dicts
(bodies and branches); dicts are modelled as ordered key-value lists.
-/

mutual
inductive DVal where
  | s (v : String)
  | n (v : Nat)
  | strs (v : List String)
  | rec1 (v : DRec)
  | recs (v : DRecs)
deriving DecidableEq
inductive DRec where
  | nil
  | cons (key : String) (val : DVal) (rest : DRec)
deriving DecidableEq
inductive DRecs where
  | nil
  | cons (head : DRec) (tail : DRecs)
deriving DecidableEq
end

/-- Build a record from a key-value list. -/
def DRec.ofList : List (String × DVal) → DRec
  | [] => .nil
  | (k, v) :: rest => .cons k v (DRec.ofList rest)

/-- Key lookup in a record (keys of records produced by `to_dict` are
unique; on duplicates the first entry wins). -/
def DRec.find : DRec → String → Option DVal
  | .nil, _ => none
  | .cons k v rest, key => if k = key then some v else DRec.find rest key

/-- Key lookup in a key-value list. -/
def lookupKV : List (String × DVal) → String → Option DVal
  | [], _ => none
  | (k, v) :: rest, key => if k = key then some v else lookupKV rest key

/-! The body items of the running model, with the attributes of their
constructors (`robot/running/model.py` lines 95-432); transient
execution state is not part of these objects. -/
mutual
inductive RItem where
  | keyword (name : String) (args : List String) (assign : List String)
      (ktype : String) (lineno : Option Nat)
  | forI (assign : List String) (flavor : String) (values : List String)
      (start : Option String) (mode : Option String) (fill : Option String)
      (lineno : Option Nat) (error : Option String) (body : RBody)
  | whileI (condition : Option String) (limit : Option String)
      (onLimit : Option String) (onLimitMessage : Option String)
      (lineno : Option Nat) (error : Option String) (body : RBody)
  | ifI (branches : RIfBranches) (lineno : Option Nat) (error : Option String)
  | tryI (branches : RTryBranches) (lineno : Option Nat) (error : Option String)
  | varI (name : String) (value : List String) (scope : Option String)
      (separator : Option String) (lineno : Option Nat) (error : Option String)
  | returnI (values : List String) (lineno : Option Nat) (error : Option String)
  | continueI (lineno : Option Nat) (error : Option String)
  | breakI (lineno : Option Nat) (error : Option String)
  | errorI (values : List String) (lineno : Option Nat) (error : String)
deriving DecidableEq
inductive RBody where
  | nil
  | cons (head : RItem) (tail : RBody)
deriving DecidableEq
inductive RIfBranch where
  | mk (btype : String) (condition : Option String) (lineno : Option Nat)
      (body : RBody)
deriving DecidableEq
inductive RIfBranches where
  | nil
  | cons (head : RIfBranch) (tail : RIfBranches)
deriving DecidableEq
inductive RTryBranch where
  | mk (btype : String) (patterns : List String) (patternType : Option String)
      (assign : Option String) (lineno : Option Nat) (body : RBody)
deriving DecidableEq
inductive RTryBranches where
  | nil
  | cons (head : RTryBranch) (tail : RTryBranches)
deriving DecidableEq
end

/-- A record entry that is present or absent. -/
def entry? (key : String) (v : Option DVal) : List (String × DVal) :=
  match v with
  | some x => [(key, x)]
  | none => []

/-- `if self.lineno: data['lineno'] = self.lineno` - the entry exists
only for a truthy (set and non-zero) line number. -/
def linenoVal : Option Nat → Option DVal
  | some n => if n = 0 then none else some (.n n)
  | none => none

/-- The `lineno` entry of the subclass `to_dict` overrides. -/
def linenoEntry (v : Option Nat) : List (String × DVal) :=
  entry? "lineno" (linenoVal v)

/-- `if self.error: data['error'] = self.error` - the entry exists only
for a truthy (set and non-empty) error. -/
def errorVal : Option String → Option DVal
  | some e => if e = "" then none else some (.s e)
  | none => none

/-- The `error` entry of the subclass `to_dict` overrides. -/
def errorEntry (v : Option String) : List (String × DVal) :=
  entry? "error" (errorVal v)

/-- An entry for a string attribute, omitted at its default. -/
def strEntry (key : String) (v dflt : String) : List (String × DVal) :=
  entry? key (if v = dflt then none else some (.s v))

/-- An entry for a tuple-of-strings attribute, omitted when empty. -/
def strsEntry (key : String) (v : List String) : List (String × DVal) :=
  entry? key (if v = [] then none else some (.strs v))

/-- An entry for an optional string attribute, omitted when `None`. -/
def optStrEntry (key : String) (v : Option String) : List (String × DVal) :=
  entry? key (v.map .s)

/-- An entry for an optional string attribute under Python truthiness
(omitted when `None` or empty), as in `UserKeyword.to_dict` and
`TestCase.to_dict`. -/
def truthyStrEntry (key : String) (v : Option String) : List (String × DVal) :=
  entry? key (errorVal v)

mutual
/-- `to_dict` of a body item.  The base-model parts (`robot.model`,
outside this repository's source) are modelled from the spec: "a
serialization to a generic structured record reflecting only
non-default fields", discriminated by a `type` entry as used by
`BaseBody.from_dicts` (a plain keyword call omits it).  The
`lineno`/`error` entries (Python truthiness) and `Error.to_dict`'s
unconditional `error` entry are direct translations of the source
(lines 104-108, 139-145, 167-173, 190-194, 212-218, 241-245, 263-269,
316-322, 345-351, 373-379, 401-407, 427-432). -/
def itemToDict : RItem → DRec
  | .keyword name args assign ktype lineno =>
    .ofList (strEntry "type" ktype "KEYWORD" ++ strEntry "name" name "" ++
      strsEntry "args" args ++ strsEntry "assign" assign ++ linenoEntry lineno)
  | .forI assign flavor values start mode fill lineno error body =>
    .ofList ([("type", .s "FOR")] ++ strsEntry "assign" assign ++
      strEntry "flavor" flavor "IN" ++ strsEntry "values" values ++
      optStrEntry "start" start ++ optStrEntry "mode" mode ++
      optStrEntry "fill" fill ++ entry? "body" (bodyVal body) ++
      linenoEntry lineno ++ errorEntry error)
  | .whileI condition limit onLimit onLimitMessage lineno error body =>
    .ofList ([("type", .s "WHILE")] ++ optStrEntry "condition" condition ++
      optStrEntry "limit" limit ++ optStrEntry "on_limit" onLimit ++
      optStrEntry "on_limit_message" onLimitMessage ++
      entry? "body" (bodyVal body) ++ linenoEntry lineno ++ errorEntry error)
  | .ifI branches lineno error =>
    .ofList ([("type", .s "IF/ELSE ROOT")] ++
      entry? "body" (ifBranchesVal branches) ++
      linenoEntry lineno ++ errorEntry error)
  | .tryI branches lineno error =>
    .ofList ([("type", .s "TRY/EXCEPT ROOT")] ++
      entry? "body" (tryBranchesVal branches) ++
      linenoEntry lineno ++ errorEntry error)
  | .varI name value scope separator lineno error =>
    .ofList ([("type", .s "VAR")] ++ strEntry "name" name "" ++
      strsEntry "value" value ++ optStrEntry "scope" scope ++
      optStrEntry "separator" separator ++ linenoEntry lineno ++ errorEntry error)
  | .returnI values lineno error =>
    .ofList ([("type", .s "RETURN")] ++ strsEntry "values" values ++
      linenoEntry lineno ++ errorEntry error)
  | .continueI lineno error =>
    .ofList ([("type", .s "CONTINUE")] ++ linenoEntry lineno ++ errorEntry error)
  | .breakI lineno error =>
    .ofList ([("type", .s "BREAK")] ++ linenoEntry lineno ++ errorEntry error)
  | .errorI values lineno error =>
    .ofList ([("type", .s "ERROR")] ++ strsEntry "values" values ++
      linenoEntry lineno ++ [("error", .s error)])

/-- `Body.to_dicts`: the records of the items, in order. -/
def bodyToDicts : RBody → DRecs
  | .nil => .nil
  | .cons h t => .cons (itemToDict h) (bodyToDicts t)

/-- The value of a `body` entry, absent for an empty (default) body. -/
def bodyVal : RBody → Option DVal
  | .nil => none
  | .cons h t => some (.recs (.cons (itemToDict h) (bodyToDicts t)))

/-- `IfBranch.to_dict` (lines 190-194 over the base model). -/
def ifBranchToDict : RIfBranch → DRec
  | .mk btype condition lineno body =>
    .ofList (strEntry "type" btype "IF" ++ optStrEntry "condition" condition ++
      entry? "body" (bodyVal body) ++ linenoEntry lineno)

/-- The records of an `If` node's branches. -/
def ifBranchesToDicts : RIfBranches → DRecs
  | .nil => .nil
  | .cons h t => .cons (ifBranchToDict h) (ifBranchesToDicts t)

/-- The value of an `If` root's `body` entry (its branches). -/
def ifBranchesVal : RIfBranches → Option DVal
  | .nil => none
  | .cons h t => some (.recs (.cons (ifBranchToDict h) (ifBranchesToDicts t)))

/-- `TryBranch.to_dict` (lines 241-245 over the base model). -/
def tryBranchToDict : RTryBranch → DRec
  | .mk btype patterns patternType assign lineno body =>
    .ofList (strEntry "type" btype "TRY" ++ strsEntry "patterns" patterns ++
      optStrEntry "pattern_type" patternType ++ optStrEntry "assign" assign ++
      entry? "body" (bodyVal body) ++ linenoEntry lineno)

/-- The records of a `Try` node's branches. -/
def tryBranchesToDicts : RTryBranches → DRecs
  | .nil => .nil
  | .cons h t => .cons (tryBranchToDict h) (tryBranchesToDicts t)

/-- The value of a `Try` root's `body` entry (its branches). -/
def tryBranchesVal : RTryBranches → Option DVal
  | .nil => none
  | .cons h t => some (.recs (.cons (tryBranchToDict h) (tryBranchesToDicts t)))
end

/-- Decoding: the value of a key as a string, with the constructor
default as fallback (`from_dict` passes record entries as keyword
arguments; absent entries keep the constructor defaults). -/
def getStr (r : DRec) (key dflt : String) : String :=
  match r.find key with
  | some (.s v) => v
  | _ => dflt

/-- Decoding: an optional string attribute. -/
def getOptStr (r : DRec) (key : String) : Option String :=
  match r.find key with
  | some (.s v) => some v
  | _ => none

/-- Decoding: a tuple-of-strings attribute. -/
def getStrs (r : DRec) (key : String) : List String :=
  match r.find key with
  | some (.strs v) => v
  | _ => []

/-- Decoding: an optional integer attribute. -/
def getOptNat (r : DRec) (key : String) : Option Nat :=
  match r.find key with
  | some (.n v) => some v
  | _ => none

/-- Decoding: a list of nested records. -/
def getRecs (r : DRec) (key : String) : DRecs :=
  match r.find key with
  | some (.recs v) => v
  | _ => .nil

mutual
/-- Model of "build node from record" for body items.  It dispatches on
the `type` entry as `BaseBody.from_dicts` does (no entry means a
keyword call); `For.from_dict` (lines 132-137) accepts the RF 6.1 key
`variables` in place of `assign`, and `TryBranch.from_dict` (lines
234-239) accepts `variable` in place of `assign`.  Absent entries keep
the constructor defaults.  The recursion is fuelled; the wrapper
`itemFromDict` supplies sufficient fuel. -/
def itemFromDictF : Nat → DRec → Option RItem
  | 0, _ => none
  | fuel + 1, r =>
    match getStr r "type" "KEYWORD" with
    | "FOR" =>
      (bodyFromDictsF fuel (getRecs r "body")).map (fun body =>
        .forI
          (match r.find "variables" with
           | some (.strs v) => v
           | _ => getStrs r "assign")
          (getStr r "flavor" "IN") (getStrs r "values")
          (getOptStr r "start") (getOptStr r "mode") (getOptStr r "fill")
          (getOptNat r "lineno") (getOptStr r "error") body)
    | "WHILE" =>
      (bodyFromDictsF fuel (getRecs r "body")).map (fun body =>
        .whileI (getOptStr r "condition") (getOptStr r "limit")
          (getOptStr r "on_limit") (getOptStr r "on_limit_message")
          (getOptNat r "lineno") (getOptStr r "error") body)
    | "IF/ELSE ROOT" =>
      (ifBranchesFromDictsF fuel (getRecs r "body")).map (fun branches =>
        .ifI branches (getOptNat r "lineno") (getOptStr r "error"))
    | "TRY/EXCEPT ROOT" =>
      (tryBranchesFromDictsF fuel (getRecs r "body")).map (fun branches =>
        .tryI branches (getOptNat r "lineno") (getOptStr r "error"))
    | "VAR" => some (.varI (getStr r "name" "") (getStrs r "value")
        (getOptStr r "scope") (getOptStr r "separator")
        (getOptNat r "lineno") (getOptStr r "error"))
    | "RETURN" => some (.returnI (getStrs r "values")
        (getOptNat r "lineno") (getOptStr r "error"))
    | "CONTINUE" => some (.continueI (getOptNat r "lineno") (getOptStr r "error"))
    | "BREAK" => some (.breakI (getOptNat r "lineno") (getOptStr r "error"))
    | "ERROR" => some (.errorI (getStrs r "values")
        (getOptNat r "lineno") (getStr r "error" ""))
    | t => some (.keyword (getStr r "name" "") (getStrs r "args")
        (getStrs r "assign") t (getOptNat r "lineno"))

/-- Decode a list of body-item records. -/
def bodyFromDictsF : Nat → DRecs → Option RBody
  | 0, _ => none
  | _ + 1, .nil => some .nil
  | fuel + 1, .cons h t =>
    match itemFromDictF fuel h, bodyFromDictsF fuel t with
    | some i, some b => some (.cons i b)
    | _, _ => none

/-- Decode one `IfBranch` record. -/
def ifBranchFromDictF : Nat → DRec → Option RIfBranch
  | 0, _ => none
  | fuel + 1, r =>
    (bodyFromDictsF fuel (getRecs r "body")).map (fun body =>
      .mk (getStr r "type" "IF") (getOptStr r "condition")
        (getOptNat r "lineno") body)

/-- Decode a list of `IfBranch` records. -/
def ifBranchesFromDictsF : Nat → DRecs → Option RIfBranches
  | 0, _ => none
  | _ + 1, .nil => some .nil
  | fuel + 1, .cons h t =>
    match ifBranchFromDictF fuel h, ifBranchesFromDictsF fuel t with
    | some i, some b => some (.cons i b)
    | _, _ => none

/-- Decode one `TryBranch` record (`variable` compatibility included). -/
def tryBranchFromDictF : Nat → DRec → Option RTryBranch
  | 0, _ => none
  | fuel + 1, r =>
    (bodyFromDictsF fuel (getRecs r "body")).map (fun body =>
      .mk (getStr r "type" "TRY") (getStrs r "patterns")
        (getOptStr r "pattern_type")
        (match r.find "variable" with
         | some (.s v) => some v
         | _ => getOptStr r "assign")
        (getOptNat r "lineno") body)

/-- Decode a list of `TryBranch` records. -/
def tryBranchesFromDictsF : Nat → DRecs → Option RTryBranches
  | 0, _ => none
  | _ + 1, .nil => some .nil
  | fuel + 1, .cons h t =>
    match tryBranchFromDictF fuel h, tryBranchesFromDictsF fuel t with
    | some i, some b => some (.cons i b)
    | _, _ => none
end

/-! Fuel requirement of decoding a node tree (one unit per item, branch
and list node). -/
mutual
def itemSize : RItem → Nat
  | .forI _ _ _ _ _ _ _ _ body => bodySize body + 1
  | .whileI _ _ _ _ _ _ body => bodySize body + 1
  | .ifI brs _ _ => ifBranchesSize brs + 1
  | .tryI brs _ _ => tryBranchesSize brs + 1
  | _ => 1
def bodySize : RBody → Nat
  | .nil => 1
  | .cons h t => itemSize h + bodySize t + 1
def ifBranchSize : RIfBranch → Nat
  | .mk _ _ _ body => bodySize body + 1
def ifBranchesSize : RIfBranches → Nat
  | .nil => 1
  | .cons h t => ifBranchSize h + ifBranchesSize t + 1
def tryBranchSize : RTryBranch → Nat
  | .mk _ _ _ _ _ body => bodySize body + 1
def tryBranchesSize : RTryBranches → Nat
  | .nil => 1
  | .cons h t => tryBranchSize h + tryBranchesSize t + 1
end

/-! Size of a record, an upper bound for the decoding fuel. -/
mutual
def dvalSize : DVal → Nat
  | .recs rs => drecsSize rs + 1
  | .rec1 r => drecSize r + 1
  | _ => 1
def drecSize : DRec → Nat
  | .nil => 1
  | .cons _ v rest => dvalSize v + drecSize rest + 1
def drecsSize : DRecs → Nat
  | .nil => 1
  | .cons h t => drecSize h + drecsSize t + 1
end

/-- Size of a key-value list (matching `drecSize` over `DRec.ofList`). -/
def listSize : List (String × DVal) → Nat
  | [] => 0
  | (_, v) :: rest => dvalSize v + 1 + listSize rest

/-- "Build node from record": decode with fuel derived from the record
itself (Python's recursion is unbounded; `drecSize` always suffices,
see `itemFromDict_toDict`). -/
def itemFromDict (r : DRec) : Option RItem := itemFromDictF (2 * drecSize r) r

/-- Line numbers are unset or positive, and error strings are unset or
non-empty: the attribute values on which Python truthiness (`if
self.lineno:`, `if self.error:`) agrees with is-not-`None`. -/
def truthyOK : Option Nat → Bool
  | some n => !(n == 0)
  | none => true

/-- Well-formedness of an optional error string: unset or non-empty. -/
def errOK : Option String → Bool
  | some e => !(e == "")
  | none => true

/-- The keyword types a `Keyword` node legitimately carries. -/
def ktypeOK (t : String) : Bool :=
  t == "KEYWORD" || t == "SETUP" || t == "TEARDOWN"

/-! Well-formed nodes: line numbers positive when set, error strings
non-empty when set, keyword types legitimate. -/
mutual
def wfItem : RItem → Bool
  | .keyword _ _ _ ktype lineno => ktypeOK ktype && truthyOK lineno
  | .forI _ _ _ _ _ _ lineno error body =>
    truthyOK lineno && errOK error && wfBody body
  | .whileI _ _ _ _ lineno error body =>
    truthyOK lineno && errOK error && wfBody body
  | .ifI brs lineno error => truthyOK lineno && errOK error && wfIfBranches brs
  | .tryI brs lineno error => truthyOK lineno && errOK error && wfTryBranches brs
  | .varI _ _ _ _ lineno error => truthyOK lineno && errOK error
  | .returnI _ lineno error => truthyOK lineno && errOK error
  | .continueI lineno error => truthyOK lineno && errOK error
  | .breakI lineno error => truthyOK lineno && errOK error
  | .errorI _ lineno _ => truthyOK lineno
def wfBody : RBody → Bool
  | .nil => true
  | .cons h t => wfItem h && wfBody t
def wfIfBranch : RIfBranch → Bool
  | .mk _ _ lineno body => truthyOK lineno && wfBody body
def wfIfBranches : RIfBranches → Bool
  | .nil => true
  | .cons h t => wfIfBranch h && wfIfBranches t
def wfTryBranch : RTryBranch → Bool
  | .mk _ _ _ _ lineno body => truthyOK lineno && wfBody body
def wfTryBranches : RTryBranches → Bool
  | .nil => true
  | .cons h t => wfTryBranch h && wfTryBranches t
end

/-- A record has an entry for a key. -/
def hasKey (r : DRec) (key : String) : Bool := (r.find key).isSome

/-- Truthiness of an optional integer attribute. -/
def truthyNat : Option Nat → Bool
  | some n => !(n == 0)
  | none => false

/-- Truthiness of an optional string attribute. -/
def truthyStr : Option String → Bool
  | some s => !(s == "")
  | none => false

/-! ### C7: `UserKeyword.to_dict` and `TestCase.to_dict` -/

/-- Kinds of a `UserKeyword` argument (`ArgumentSpec` infos). -/
inductive ArgKind where
  | positionalOrNamed
  | varPositional
  | namedOnlyMarker
  | namedOnly
  | varNamed
deriving DecidableEq

/-- One argument of a `UserKeyword`'s argument specification; `none`
default models `NOT_SET`. -/
structure ArgInfo where
  kind : ArgKind
  name : String
  default : Option String
deriving DecidableEq

/-- `UserKeyword._decorate_args` (lines 983-996). -/
def decorateArg (a : ArgInfo) : String :=
  let deco :=
    match a.kind with
    | .varNamed => "&"
    | .varPositional => "@"
    | .namedOnlyMarker => "@"
    | _ => "$"
  let arg := deco ++ "\x7b" ++ a.name ++ "\x7d"
  match a.default with
  | some d => arg ++ "=" ++ d
  | none => arg

/-- `UserKeyword`, as far as `to_dict` is concerned. -/
structure UKFull where
  name : String
  args : List ArgInfo
  doc : String
  tags : List String
  timeout : Option String
  lineno : Option Nat
  error : Option String
  setupSlot : Option KwFixture
  teardownSlot : Option KwFixture
  body : RBody

/-- Fixture serialization (`Keyword.to_dict` of a setup/teardown);
modelled from the spec (omit-defaults), only its presence matters for
C7. -/
def kwFixtureToDict (k : KwFixture) : DRec :=
  .ofList (strEntry "type" k.ktype "KEYWORD" ++
    (match k.name with
     | some n => [("name", .s n)]
     | none => []))

/-- The value of a `setup`/`teardown` entry: present exactly when the
slot holds a truthy fixture (`has_setup`/`has_teardown`). -/
def fixtureVal : Option KwFixture → Option DVal
  | some k => if kwTruthy k then some (.rec1 (kwFixtureToDict k)) else none
  | none => none

/-- `UserKeyword.to_dict` (lines 966-981): `name` always; `args`
(decorated), `doc`, `tags`, `timeout`, `lineno`, `error` only when
truthy; `setup` when `has_setup`; `body` always; `teardown` when
`has_teardown`. -/
def ukToDict (u : UKFull) : DRec :=
  .ofList ([("name", .s u.name)] ++
    strsEntry "args" (u.args.map decorateArg) ++
    strEntry "doc" u.doc "" ++
    strsEntry "tags" u.tags ++
    truthyStrEntry "timeout" u.timeout ++
    linenoEntry u.lineno ++
    errorEntry u.error ++
    entry? "setup" (fixtureVal u.setupSlot) ++
    [("body", .recs (bodyToDicts u.body))] ++
    entry? "teardown" (fixtureVal u.teardownSlot))

/-- `TestCase`, as far as `to_dict` is concerned. -/
structure TCFull where
  name : String
  doc : String
  tags : List String
  timeout : Option String
  lineno : Option Nat
  template : Option String
  error : Option String
  body : RBody

/-- `TestCase.to_dict` (lines 458-464) on top of the base-model test
serialization (modelled from the spec: name, then non-default doc,
tags, timeout, lineno, and the body); the subclass adds `template` and
`error` entries when truthy. -/
def tcToDict (t : TCFull) : DRec :=
  .ofList ([("name", .s t.name)] ++
    strEntry "doc" t.doc "" ++
    strsEntry "tags" t.tags ++
    truthyStrEntry "timeout" t.timeout ++
    linenoEntry t.lineno ++
    [("body", .recs (bodyToDicts t.body))] ++
    truthyStrEntry "template" t.template ++
    errorEntry t.error)

/-! ## Theorems -/

/-! ### Record lookup helpers -/

theorem find_ofList (l : List (String × DVal)) (key : String) :
    (DRec.ofList l).find key = lookupKV l key := by
  induction l with
  | nil => rfl
  | cons h t ih =>
    obtain ⟨k, v⟩ := h
    simp only [DRec.ofList, DRec.find, lookupKV, ih]

theorem lookupKV_entry_ne (k key : String) (v : Option DVal)
    (rest : List (String × DVal)) (h : key ≠ k) :
    lookupKV (entry? k v ++ rest) key = lookupKV rest key := by
  cases v <;> simp [entry?, lookupKV, Ne.symm h]

theorem lookupKV_entry_one_ne (k key : String) (v : Option DVal) (h : key ≠ k) :
    lookupKV (entry? k v) key = none := by
  cases v <;> simp [entry?, lookupKV, Ne.symm h]

theorem lookupKV_entry_hit (k : String) (v : Option DVal)
    (rest : List (String × DVal)) :
    lookupKV (entry? k v ++ rest) k = v.orElse (fun _ => lookupKV rest k) := by
  cases v <;> simp [entry?, lookupKV]

theorem lookupKV_entry_one (k : String) (v : Option DVal) :
    lookupKV (entry? k v) k = v := by
  cases v <;> simp [entry?, lookupKV]

theorem orElse_none_fun (v : Option DVal) : (v.orElse fun _ => none) = v := by
  cases v <;> rfl

/-! ### Decoding getters on encoded entries -/

theorem getStr_eq (r : DRec) (key dflt v : String)
    (h : r.find key = if v = dflt then none else some (.s v)) :
    getStr r key dflt = v := by
  by_cases hc : v = dflt <;> simp [getStr, h, hc]

theorem getOptStr_eq (r : DRec) (key : String) (v : Option String)
    (h : r.find key = v.map .s) : getOptStr r key = v := by
  cases v <;> simp [getOptStr, h]

theorem getStrs_eq (r : DRec) (key : String) (v : List String)
    (h : r.find key = if v = [] then none else some (.strs v)) :
    getStrs r key = v := by
  by_cases hc : v = [] <;> simp [getStrs, h, hc]

theorem getOptNat_lineno (r : DRec) (v : Option Nat) (hwf : truthyOK v = true)
    (h : r.find "lineno" = linenoVal v) : getOptNat r "lineno" = v := by
  cases v with
  | none => simp [getOptNat, h, linenoVal]
  | some n =>
    simp [truthyOK] at hwf
    simp [getOptNat, h, linenoVal, hwf]

theorem getOptStr_error (r : DRec) (v : Option String) (hwf : errOK v = true)
    (h : r.find "error" = errorVal v) : getOptStr r "error" = v := by
  cases v with
  | none => simp [getOptStr, h, errorVal]
  | some e =>
    simp [errOK] at hwf
    simp [getOptStr, h, errorVal, hwf]

theorem getRecs_body (r : DRec) (b : RBody) (h : r.find "body" = bodyVal b) :
    getRecs r "body" = bodyToDicts b := by
  cases b <;> simp [getRecs, h, bodyVal, bodyToDicts]

theorem getRecs_ifBranches (r : DRec) (b : RIfBranches)
    (h : r.find "body" = ifBranchesVal b) :
    getRecs r "body" = ifBranchesToDicts b := by
  cases b <;> simp [getRecs, h, ifBranchesVal, ifBranchesToDicts]

theorem getRecs_tryBranches (r : DRec) (b : RTryBranches)
    (h : r.find "body" = tryBranchesVal b) :
    getRecs r "body" = tryBranchesToDicts b := by
  cases b <;> simp [getRecs, h, tryBranchesVal, tryBranchesToDicts]

/-! ### Record sizes bound decoding fuel -/

theorem drecSize_ofList (l : List (String × DVal)) :
    drecSize (DRec.ofList l) = listSize l + 1 := by
  induction l with
  | nil => rfl
  | cons h t ih =>
    obtain ⟨k, v⟩ := h
    simp [DRec.ofList, drecSize, listSize, ih]
    omega

theorem listSize_append (l1 l2 : List (String × DVal)) :
    listSize (l1 ++ l2) = listSize l1 + listSize l2 := by
  induction l1 with
  | nil => simp [listSize]
  | cons h t ih =>
    obtain ⟨k, v⟩ := h
    simp [listSize, ih]
    omega

theorem listSize_appendL (l1 l2 : List (String × DVal)) :
    listSize (List.append l1 l2) = listSize l1 + listSize l2 :=
  listSize_append l1 l2

/-- The decoding fuel a node needs is covered by twice the size of its
own record. -/
theorem sizeFuelAux : ∀ k : Nat,
    (∀ n : RItem, sizeOf n ≤ k → itemSize n ≤ 2 * drecSize (itemToDict n)) ∧
    (∀ b : RBody, sizeOf b ≤ k → bodySize b ≤ 2 * drecsSize (bodyToDicts b)) ∧
    (∀ br : RIfBranch, sizeOf br ≤ k →
      ifBranchSize br ≤ 2 * drecSize (ifBranchToDict br)) ∧
    (∀ bs : RIfBranches, sizeOf bs ≤ k →
      ifBranchesSize bs ≤ 2 * drecsSize (ifBranchesToDicts bs)) ∧
    (∀ br : RTryBranch, sizeOf br ≤ k →
      tryBranchSize br ≤ 2 * drecSize (tryBranchToDict br)) ∧
    (∀ bs : RTryBranches, sizeOf bs ≤ k →
      tryBranchesSize bs ≤ 2 * drecsSize (tryBranchesToDicts bs)) := by
  intro k
  induction k using Nat.strong_induction_on with
  | _ k IH =>
    refine ⟨?_, ?_, ?_, ?_, ?_, ?_⟩
    · intro n hsize
      cases n with
      | forI a f v s m fi l e body =>
        have hb : sizeOf body < k := by simp [RItem.forI.sizeOf_spec] at hsize; omega
        have ihb := (IH (sizeOf body) hb).2.1 body le_rfl
        cases body with
        | nil =>
          simp [itemToDict, itemSize, bodySize, drecSize_ofList, List.append_assoc,
            List.singleton_append, List.nil_append, listSize, listSize_append,
            listSize_appendL, dvalSize, bodyVal, entry?]
        | cons hh tt =>
          simp only [bodySize, bodyToDicts, drecsSize] at ihb
          simp only [itemToDict, itemSize, bodySize, drecSize_ofList,
            List.append_assoc, List.singleton_append, List.nil_append, listSize,
            listSize_append, listSize_appendL, dvalSize, bodyVal, entry?, drecsSize]
          omega
      | whileI c li ol olm l e body =>
        have hb : sizeOf body < k := by simp [RItem.whileI.sizeOf_spec] at hsize; omega
        have ihb := (IH (sizeOf body) hb).2.1 body le_rfl
        cases body with
        | nil =>
          simp [itemToDict, itemSize, bodySize, drecSize_ofList, List.append_assoc,
            List.singleton_append, List.nil_append, listSize, listSize_append,
            listSize_appendL, dvalSize, bodyVal, entry?]
        | cons hh tt =>
          simp only [bodySize, bodyToDicts, drecsSize] at ihb
          simp only [itemToDict, itemSize, bodySize, drecSize_ofList,
            List.append_assoc, List.singleton_append, List.nil_append, listSize,
            listSize_append, listSize_appendL, dvalSize, bodyVal, entry?, drecsSize]
          omega
      | ifI brs l e =>
        have hb : sizeOf brs < k := by simp [RItem.ifI.sizeOf_spec] at hsize; omega
        have ihb := (IH (sizeOf brs) hb).2.2.2.1 brs le_rfl
        cases brs with
        | nil =>
          simp [itemToDict, itemSize, ifBranchesSize, drecSize_ofList,
            List.append_assoc, List.singleton_append, List.nil_append, listSize,
            listSize_append, listSize_appendL, dvalSize, ifBranchesVal, entry?]
        | cons hh tt =>
          simp only [ifBranchesSize, ifBranchSize, ifBranchesToDicts, drecsSize] at ihb
          simp only [itemToDict, itemSize, ifBranchesSize, drecSize_ofList,
            List.append_assoc, List.singleton_append, List.nil_append, listSize,
            listSize_append, listSize_appendL, dvalSize, ifBranchesVal, entry?,
            drecsSize]
          omega
      | tryI brs l e =>
        have hb : sizeOf brs < k := by simp [RItem.tryI.sizeOf_spec] at hsize; omega
        have ihb := (IH (sizeOf brs) hb).2.2.2.2.2 brs le_rfl
        cases brs with
        | nil =>
          simp [itemToDict, itemSize, tryBranchesSize, drecSize_ofList,
            List.append_assoc, List.singleton_append, List.nil_append, listSize,
            listSize_append, listSize_appendL, dvalSize, tryBranchesVal, entry?]
        | cons hh tt =>
          simp only [tryBranchesSize, tryBranchSize, tryBranchesToDicts, drecsSize] at ihb
          simp only [itemToDict, itemSize, tryBranchesSize, drecSize_ofList,
            List.append_assoc, List.singleton_append, List.nil_append, listSize,
            listSize_append, listSize_appendL, dvalSize, tryBranchesVal, entry?,
            drecsSize]
          omega
      | keyword name args assign ktype lineno =>
        simp only [itemToDict, itemSize, drecSize_ofList]
        omega
      | varI name value scope sep l e =>
        simp only [itemToDict, itemSize, drecSize_ofList]
        omega
      | returnI v l e =>
        simp only [itemToDict, itemSize, drecSize_ofList]
        omega
      | continueI l e =>
        simp only [itemToDict, itemSize, drecSize_ofList]
        omega
      | breakI l e =>
        simp only [itemToDict, itemSize, drecSize_ofList]
        omega
      | errorI v l e =>
        simp only [itemToDict, itemSize, drecSize_ofList]
        omega
    · intro b hsize
      cases b with
      | nil => simp [bodySize, bodyToDicts, drecsSize]
      | cons h t =>
        have hh : sizeOf h < k := by simp [RBody.cons.sizeOf_spec] at hsize; omega
        have ht : sizeOf t < k := by simp [RBody.cons.sizeOf_spec] at hsize; omega
        have ih1 := (IH (sizeOf h) hh).1 h le_rfl
        have ih2 := (IH (sizeOf t) ht).2.1 t le_rfl
        simp only [bodySize, bodyToDicts, drecsSize]
        omega
    · intro br hsize
      obtain ⟨btype, cond, l, body⟩ := br
      have hb : sizeOf body < k := by simp [RIfBranch.mk.sizeOf_spec] at hsize; omega
      have ihb := (IH (sizeOf body) hb).2.1 body le_rfl
      cases body with
      | nil =>
        simp [ifBranchToDict, ifBranchSize, bodySize, drecSize_ofList,
          List.append_assoc, List.singleton_append, List.nil_append, listSize,
          listSize_append, listSize_appendL, dvalSize, bodyVal, entry?]
      | cons hh tt =>
        simp only [bodySize, bodyToDicts, drecsSize] at ihb
        simp only [ifBranchToDict, ifBranchSize, bodySize, drecSize_ofList,
          List.append_assoc, List.singleton_append, List.nil_append, listSize,
          listSize_append, listSize_appendL, dvalSize, bodyVal, entry?, drecsSize]
        omega
    · intro bs hsize
      cases bs with
      | nil => simp [ifBranchesSize, ifBranchesToDicts, drecsSize]
      | cons h t =>
        have hh : sizeOf h < k := by simp [RIfBranches.cons.sizeOf_spec] at hsize; omega
        have ht : sizeOf t < k := by simp [RIfBranches.cons.sizeOf_spec] at hsize; omega
        have ih1 := (IH (sizeOf h) hh).2.2.1 h le_rfl
        have ih2 := (IH (sizeOf t) ht).2.2.2.1 t le_rfl
        simp only [ifBranchesSize, ifBranchesToDicts, drecsSize]
        omega
    · intro br hsize
      obtain ⟨btype, pats, pt, asn, l, body⟩ := br
      have hb : sizeOf body < k := by simp [RTryBranch.mk.sizeOf_spec] at hsize; omega
      have ihb := (IH (sizeOf body) hb).2.1 body le_rfl
      cases body with
      | nil =>
        simp [tryBranchToDict, tryBranchSize, bodySize, drecSize_ofList,
          List.append_assoc, List.singleton_append, List.nil_append, listSize,
          listSize_append, listSize_appendL, dvalSize, bodyVal, entry?]
      | cons hh tt =>
        simp only [bodySize, bodyToDicts, drecsSize] at ihb
        simp only [tryBranchToDict, tryBranchSize, bodySize, drecSize_ofList,
          List.append_assoc, List.singleton_append, List.nil_append, listSize,
          listSize_append, listSize_appendL, dvalSize, bodyVal, entry?, drecsSize]
        omega
    · intro bs hsize
      cases bs with
      | nil => simp [tryBranchesSize, tryBranchesToDicts, drecsSize]
      | cons h t =>
        have hh : sizeOf h < k := by simp [RTryBranches.cons.sizeOf_spec] at hsize; omega
        have ht : sizeOf t < k := by simp [RTryBranches.cons.sizeOf_spec] at hsize; omega
        have ih1 := (IH (sizeOf h) hh).2.2.2.2.1 h le_rfl
        have ih2 := (IH (sizeOf t) ht).2.2.2.2.2 t le_rfl
        simp only [tryBranchesSize, tryBranchesToDicts, drecsSize]
        omega

/-- Decoding the record of a well-formed node at sufficient fuel
reproduces the node (mutually, for items, bodies and branches). -/
theorem roundtripAux : ∀ k : Nat,
    (∀ n : RItem, sizeOf n ≤ k → wfItem n = true → ∀ fuel, itemSize n ≤ fuel →
      itemFromDictF fuel (itemToDict n) = some n) ∧
    (∀ b : RBody, sizeOf b ≤ k → wfBody b = true → ∀ fuel, bodySize b ≤ fuel →
      bodyFromDictsF fuel (bodyToDicts b) = some b) ∧
    (∀ br : RIfBranch, sizeOf br ≤ k → wfIfBranch br = true → ∀ fuel,
      ifBranchSize br ≤ fuel → ifBranchFromDictF fuel (ifBranchToDict br) = some br) ∧
    (∀ bs : RIfBranches, sizeOf bs ≤ k → wfIfBranches bs = true → ∀ fuel,
      ifBranchesSize bs ≤ fuel →
      ifBranchesFromDictsF fuel (ifBranchesToDicts bs) = some bs) ∧
    (∀ br : RTryBranch, sizeOf br ≤ k → wfTryBranch br = true → ∀ fuel,
      tryBranchSize br ≤ fuel → tryBranchFromDictF fuel (tryBranchToDict br) = some br) ∧
    (∀ bs : RTryBranches, sizeOf bs ≤ k → wfTryBranches bs = true → ∀ fuel,
      tryBranchesSize bs ≤ fuel →
      tryBranchesFromDictsF fuel (tryBranchesToDicts bs) = some bs) := by
  intro k
  induction k using Nat.strong_induction_on with
  | _ k IH =>
    refine ⟨?_, ?_, ?_, ?_, ?_, ?_⟩
    · intro n hsize hwf fuel hfuel
      cases n with
      | keyword name args assign ktype lineno =>
        simp only [wfItem, Bool.and_eq_true] at hwf
        obtain ⟨hk, hl⟩ := hwf
        cases fuel with
        | zero => simp [itemSize] at hfuel
        | succ fl =>
        set r := itemToDict (.keyword name args assign ktype lineno) with hr
        have hty : r.find "type" = (if ktype = "KEYWORD" then none else some (.s ktype)) := by
          simp [hr, itemToDict, find_ofList, lookupKV, strEntry, strsEntry, optStrEntry, linenoEntry, errorEntry, lookupKV_entry_ne, lookupKV_entry_one_ne, lookupKV_entry_hit, lookupKV_entry_one, orElse_none_fun]
        have hname : r.find "name" = (if name = "" then none else some (.s name)) := by
          simp [hr, itemToDict, find_ofList, lookupKV, strEntry, strsEntry, optStrEntry, linenoEntry, errorEntry, lookupKV_entry_ne, lookupKV_entry_one_ne, lookupKV_entry_hit, lookupKV_entry_one, orElse_none_fun]
        have hargs : r.find "args" = (if args = [] then none else some (.strs args)) := by
          simp [hr, itemToDict, find_ofList, lookupKV, strEntry, strsEntry, optStrEntry, linenoEntry, errorEntry, lookupKV_entry_ne, lookupKV_entry_one_ne, lookupKV_entry_hit, lookupKV_entry_one, orElse_none_fun]
        have hassign : r.find "assign" = (if assign = [] then none else some (.strs assign)) := by
          simp [hr, itemToDict, find_ofList, lookupKV, strEntry, strsEntry, optStrEntry, linenoEntry, errorEntry, lookupKV_entry_ne, lookupKV_entry_one_ne, lookupKV_entry_hit, lookupKV_entry_one, orElse_none_fun]
        have hlineno : r.find "lineno" = linenoVal lineno := by
          simp [hr, itemToDict, find_ofList, lookupKV, strEntry, strsEntry, optStrEntry, linenoEntry, errorEntry, lookupKV_entry_ne, lookupKV_entry_one_ne, lookupKV_entry_hit, lookupKV_entry_one, orElse_none_fun]
        have hgty : getStr r "type" "KEYWORD" = ktype :=
          getStr_eq r "type" "KEYWORD" ktype hty
        rw [itemFromDictF, hgty]
        simp only [ktypeOK, Bool.or_eq_true, beq_iff_eq] at hk
        rcases hk with (rfl | rfl) | rfl <;>
          simp [getStr_eq r "name" "" name hname,
            getStrs_eq r "args" args hargs,
            getStrs_eq r "assign" assign hassign,
            getOptNat_lineno r lineno hl hlineno]
      | forI assign flavor values start mode fill lineno error body =>
        simp only [wfItem, Bool.and_eq_true] at hwf
        obtain ⟨⟨hl, he⟩, hwb⟩ := hwf
        have hbs : sizeOf body < k := by
          simp [RItem.forI.sizeOf_spec] at hsize; omega
        cases fuel with
        | zero => simp [itemSize] at hfuel
        | succ fl =>
        have hfl : bodySize body ≤ fl := by simp [itemSize] at hfuel; omega
        have ih := (IH (sizeOf body) hbs).2.1 body le_rfl hwb fl hfl
        set r := itemToDict (.forI assign flavor values start mode fill lineno error body) with hr
        have hty : r.find "type" = some (.s "FOR") := by
          simp [hr, itemToDict, find_ofList, lookupKV, strEntry, strsEntry, optStrEntry, linenoEntry, errorEntry, lookupKV_entry_ne, lookupKV_entry_one_ne, lookupKV_entry_hit, lookupKV_entry_one, orElse_none_fun]
        have hvars : r.find "variables" = none := by
          simp [hr, itemToDict, find_ofList, lookupKV, strEntry, strsEntry, optStrEntry, linenoEntry, errorEntry, lookupKV_entry_ne, lookupKV_entry_one_ne, lookupKV_entry_hit, lookupKV_entry_one, orElse_none_fun]
        have hassign : r.find "assign" = (if assign = [] then none else some (.strs assign)) := by
          simp [hr, itemToDict, find_ofList, lookupKV, strEntry, strsEntry, optStrEntry, linenoEntry, errorEntry, lookupKV_entry_ne, lookupKV_entry_one_ne, lookupKV_entry_hit, lookupKV_entry_one, orElse_none_fun]
        have hflavor : r.find "flavor" = (if flavor = "IN" then none else some (.s flavor)) := by
          simp [hr, itemToDict, find_ofList, lookupKV, strEntry, strsEntry, optStrEntry, linenoEntry, errorEntry, lookupKV_entry_ne, lookupKV_entry_one_ne, lookupKV_entry_hit, lookupKV_entry_one, orElse_none_fun]
        have hvalues : r.find "values" = (if values = [] then none else some (.strs values)) := by
          simp [hr, itemToDict, find_ofList, lookupKV, strEntry, strsEntry, optStrEntry, linenoEntry, errorEntry, lookupKV_entry_ne, lookupKV_entry_one_ne, lookupKV_entry_hit, lookupKV_entry_one, orElse_none_fun]
        have hstart : r.find "start" = start.map .s := by
          simp [hr, itemToDict, find_ofList, lookupKV, strEntry, strsEntry, optStrEntry, linenoEntry, errorEntry, lookupKV_entry_ne, lookupKV_entry_one_ne, lookupKV_entry_hit, lookupKV_entry_one, orElse_none_fun]
        have hmode : r.find "mode" = mode.map .s := by
          simp [hr, itemToDict, find_ofList, lookupKV, strEntry, strsEntry, optStrEntry, linenoEntry, errorEntry, lookupKV_entry_ne, lookupKV_entry_one_ne, lookupKV_entry_hit, lookupKV_entry_one, orElse_none_fun]
        have hfill : r.find "fill" = fill.map .s := by
          simp [hr, itemToDict, find_ofList, lookupKV, strEntry, strsEntry, optStrEntry, linenoEntry, errorEntry, lookupKV_entry_ne, lookupKV_entry_one_ne, lookupKV_entry_hit, lookupKV_entry_one, orElse_none_fun]
        have hbody : r.find "body" = bodyVal body := by
          simp [hr, itemToDict, find_ofList, lookupKV, strEntry, strsEntry, optStrEntry, linenoEntry, errorEntry, lookupKV_entry_ne, lookupKV_entry_one_ne, lookupKV_entry_hit, lookupKV_entry_one, orElse_none_fun]
        have hlineno : r.find "lineno" = linenoVal lineno := by
          simp [hr, itemToDict, find_ofList, lookupKV, strEntry, strsEntry, optStrEntry, linenoEntry, errorEntry, lookupKV_entry_ne, lookupKV_entry_one_ne, lookupKV_entry_hit, lookupKV_entry_one, orElse_none_fun]
        have herror : r.find "error" = errorVal error := by
          simp [hr, itemToDict, find_ofList, lookupKV, strEntry, strsEntry, optStrEntry, linenoEntry, errorEntry, lookupKV_entry_ne, lookupKV_entry_one_ne, lookupKV_entry_hit, lookupKV_entry_one, orElse_none_fun]
        have hgty : getStr r "type" "KEYWORD" = "FOR" := by simp [getStr, hty]
        rw [itemFromDictF, hgty]
        rw [getRecs_body r body hbody, ih, hvars]
        simp [getStr_eq r "flavor" "IN" flavor hflavor,
          getStrs_eq r "assign" assign hassign,
          getStrs_eq r "values" values hvalues,
          getOptStr_eq r "start" start hstart,
          getOptStr_eq r "mode" mode hmode,
          getOptStr_eq r "fill" fill hfill,
          getOptNat_lineno r lineno hl hlineno,
          getOptStr_error r error he herror]
      | whileI condition limit onLimit onLimitMessage lineno error body =>
        simp only [wfItem, Bool.and_eq_true] at hwf
        obtain ⟨⟨hl, he⟩, hwb⟩ := hwf
        have hbs : sizeOf body < k := by
          simp [RItem.whileI.sizeOf_spec] at hsize; omega
        cases fuel with
        | zero => simp [itemSize] at hfuel
        | succ fl =>
        have hfl : bodySize body ≤ fl := by simp [itemSize] at hfuel; omega
        have ih := (IH (sizeOf body) hbs).2.1 body le_rfl hwb fl hfl
        set r := itemToDict (.whileI condition limit onLimit onLimitMessage lineno error body) with hr
        have hty : r.find "type" = some (.s "WHILE") := by
          simp [hr, itemToDict, find_ofList, lookupKV, strEntry, strsEntry, optStrEntry, linenoEntry, errorEntry, lookupKV_entry_ne, lookupKV_entry_one_ne, lookupKV_entry_hit, lookupKV_entry_one, orElse_none_fun]
        have hcond : r.find "condition" = condition.map .s := by
          simp [hr, itemToDict, find_ofList, lookupKV, strEntry, strsEntry, optStrEntry, linenoEntry, errorEntry, lookupKV_entry_ne, lookupKV_entry_one_ne, lookupKV_entry_hit, lookupKV_entry_one, orElse_none_fun]
        have hlimit : r.find "limit" = limit.map .s := by
          simp [hr, itemToDict, find_ofList, lookupKV, strEntry, strsEntry, optStrEntry, linenoEntry, errorEntry, lookupKV_entry_ne, lookupKV_entry_one_ne, lookupKV_entry_hit, lookupKV_entry_one, orElse_none_fun]
        have holim : r.find "on_limit" = onLimit.map .s := by
          simp [hr, itemToDict, find_ofList, lookupKV, strEntry, strsEntry, optStrEntry, linenoEntry, errorEntry, lookupKV_entry_ne, lookupKV_entry_one_ne, lookupKV_entry_hit, lookupKV_entry_one, orElse_none_fun]
        have holm : r.find "on_limit_message" = onLimitMessage.map .s := by
          simp [hr, itemToDict, find_ofList, lookupKV, strEntry, strsEntry, optStrEntry, linenoEntry, errorEntry, lookupKV_entry_ne, lookupKV_entry_one_ne, lookupKV_entry_hit, lookupKV_entry_one, orElse_none_fun]
        have hbody : r.find "body" = bodyVal body := by
          simp [hr, itemToDict, find_ofList, lookupKV, strEntry, strsEntry, optStrEntry, linenoEntry, errorEntry, lookupKV_entry_ne, lookupKV_entry_one_ne, lookupKV_entry_hit, lookupKV_entry_one, orElse_none_fun]
        have hlineno : r.find "lineno" = linenoVal lineno := by
          simp [hr, itemToDict, find_ofList, lookupKV, strEntry, strsEntry, optStrEntry, linenoEntry, errorEntry, lookupKV_entry_ne, lookupKV_entry_one_ne, lookupKV_entry_hit, lookupKV_entry_one, orElse_none_fun]
        have herror : r.find "error" = errorVal error := by
          simp [hr, itemToDict, find_ofList, lookupKV, strEntry, strsEntry, optStrEntry, linenoEntry, errorEntry, lookupKV_entry_ne, lookupKV_entry_one_ne, lookupKV_entry_hit, lookupKV_entry_one, orElse_none_fun]
        have hgty : getStr r "type" "KEYWORD" = "WHILE" := by simp [getStr, hty]
        rw [itemFromDictF, hgty]
        rw [getRecs_body r body hbody, ih]
        simp [getOptStr_eq r "condition" condition hcond,
          getOptStr_eq r "limit" limit hlimit,
          getOptStr_eq r "on_limit" onLimit holim,
          getOptStr_eq r "on_limit_message" onLimitMessage holm,
          getOptNat_lineno r lineno hl hlineno,
          getOptStr_error r error he herror]
      | ifI branches lineno error =>
        simp only [wfItem, Bool.and_eq_true] at hwf
        obtain ⟨⟨hl, he⟩, hwb⟩ := hwf
        have hbs : sizeOf branches < k := by
          simp [RItem.ifI.sizeOf_spec] at hsize; omega
        cases fuel with
        | zero => simp [itemSize] at hfuel
        | succ fl =>
        have hfl : ifBranchesSize branches ≤ fl := by simp [itemSize] at hfuel; omega
        have ih := (IH (sizeOf branches) hbs).2.2.2.1 branches le_rfl hwb fl hfl
        set r := itemToDict (.ifI branches lineno error) with hr
        have hty : r.find "type" = some (.s "IF/ELSE ROOT") := by
          simp [hr, itemToDict, find_ofList, lookupKV, strEntry, strsEntry, optStrEntry, linenoEntry, errorEntry, lookupKV_entry_ne, lookupKV_entry_one_ne, lookupKV_entry_hit, lookupKV_entry_one, orElse_none_fun]
        have hbody : r.find "body" = ifBranchesVal branches := by
          simp [hr, itemToDict, find_ofList, lookupKV, strEntry, strsEntry, optStrEntry, linenoEntry, errorEntry, lookupKV_entry_ne, lookupKV_entry_one_ne, lookupKV_entry_hit, lookupKV_entry_one, orElse_none_fun]
        have hlineno : r.find "lineno" = linenoVal lineno := by
          simp [hr, itemToDict, find_ofList, lookupKV, strEntry, strsEntry, optStrEntry, linenoEntry, errorEntry, lookupKV_entry_ne, lookupKV_entry_one_ne, lookupKV_entry_hit, lookupKV_entry_one, orElse_none_fun]
        have herror : r.find "error" = errorVal error := by
          simp [hr, itemToDict, find_ofList, lookupKV, strEntry, strsEntry, optStrEntry, linenoEntry, errorEntry, lookupKV_entry_ne, lookupKV_entry_one_ne, lookupKV_entry_hit, lookupKV_entry_one, orElse_none_fun]
        have hgty : getStr r "type" "KEYWORD" = "IF/ELSE ROOT" := by simp [getStr, hty]
        rw [itemFromDictF, hgty]
        rw [getRecs_ifBranches r branches hbody, ih]
        simp [getOptNat_lineno r lineno hl hlineno,
          getOptStr_error r error he herror]
      | tryI branches lineno error =>
        simp only [wfItem, Bool.and_eq_true] at hwf
        obtain ⟨⟨hl, he⟩, hwb⟩ := hwf
        have hbs : sizeOf branches < k := by
          simp [RItem.tryI.sizeOf_spec] at hsize; omega
        cases fuel with
        | zero => simp [itemSize] at hfuel
        | succ fl =>
        have hfl : tryBranchesSize branches ≤ fl := by simp [itemSize] at hfuel; omega
        have ih := (IH (sizeOf branches) hbs).2.2.2.2.2 branches le_rfl hwb fl hfl
        set r := itemToDict (.tryI branches lineno error) with hr
        have hty : r.find "type" = some (.s "TRY/EXCEPT ROOT") := by
          simp [hr, itemToDict, find_ofList, lookupKV, strEntry, strsEntry, optStrEntry, linenoEntry, errorEntry, lookupKV_entry_ne, lookupKV_entry_one_ne, lookupKV_entry_hit, lookupKV_entry_one, orElse_none_fun]
        have hbody : r.find "body" = tryBranchesVal branches := by
          simp [hr, itemToDict, find_ofList, lookupKV, strEntry, strsEntry, optStrEntry, linenoEntry, errorEntry, lookupKV_entry_ne, lookupKV_entry_one_ne, lookupKV_entry_hit, lookupKV_entry_one, orElse_none_fun]
        have hlineno : r.find "lineno" = linenoVal lineno := by
          simp [hr, itemToDict, find_ofList, lookupKV, strEntry, strsEntry, optStrEntry, linenoEntry, errorEntry, lookupKV_entry_ne, lookupKV_entry_one_ne, lookupKV_entry_hit, lookupKV_entry_one, orElse_none_fun]
        have herror : r.find "error" = errorVal error := by
          simp [hr, itemToDict, find_ofList, lookupKV, strEntry, strsEntry, optStrEntry, linenoEntry, errorEntry, lookupKV_entry_ne, lookupKV_entry_one_ne, lookupKV_entry_hit, lookupKV_entry_one, orElse_none_fun]
        have hgty : getStr r "type" "KEYWORD" = "TRY/EXCEPT ROOT" := by simp [getStr, hty]
        rw [itemFromDictF, hgty]
        rw [getRecs_tryBranches r branches hbody, ih]
        simp [getOptNat_lineno r lineno hl hlineno,
          getOptStr_error r error he herror]
      | varI name value scope separator lineno error =>
        simp only [wfItem, Bool.and_eq_true] at hwf
        obtain ⟨hl, he⟩ := hwf
        cases fuel with
        | zero => simp [itemSize] at hfuel
        | succ fl =>
        set r := itemToDict (.varI name value scope separator lineno error) with hr
        have hty : r.find "type" = some (.s "VAR") := by
          simp [hr, itemToDict, find_ofList, lookupKV, strEntry, strsEntry, optStrEntry, linenoEntry, errorEntry, lookupKV_entry_ne, lookupKV_entry_one_ne, lookupKV_entry_hit, lookupKV_entry_one, orElse_none_fun]
        have hname : r.find "name" = (if name = "" then none else some (.s name)) := by
          simp [hr, itemToDict, find_ofList, lookupKV, strEntry, strsEntry, optStrEntry, linenoEntry, errorEntry, lookupKV_entry_ne, lookupKV_entry_one_ne, lookupKV_entry_hit, lookupKV_entry_one, orElse_none_fun]
        have hvalue : r.find "value" = (if value = [] then none else some (.strs value)) := by
          simp [hr, itemToDict, find_ofList, lookupKV, strEntry, strsEntry, optStrEntry, linenoEntry, errorEntry, lookupKV_entry_ne, lookupKV_entry_one_ne, lookupKV_entry_hit, lookupKV_entry_one, orElse_none_fun]
        have hscope : r.find "scope" = scope.map .s := by
          simp [hr, itemToDict, find_ofList, lookupKV, strEntry, strsEntry, optStrEntry, linenoEntry, errorEntry, lookupKV_entry_ne, lookupKV_entry_one_ne, lookupKV_entry_hit, lookupKV_entry_one, orElse_none_fun]
        have hsep : r.find "separator" = separator.map .s := by
          simp [hr, itemToDict, find_ofList, lookupKV, strEntry, strsEntry, optStrEntry, linenoEntry, errorEntry, lookupKV_entry_ne, lookupKV_entry_one_ne, lookupKV_entry_hit, lookupKV_entry_one, orElse_none_fun]
        have hlineno : r.find "lineno" = linenoVal lineno := by
          simp [hr, itemToDict, find_ofList, lookupKV, strEntry, strsEntry, optStrEntry, linenoEntry, errorEntry, lookupKV_entry_ne, lookupKV_entry_one_ne, lookupKV_entry_hit, lookupKV_entry_one, orElse_none_fun]
        have herror : r.find "error" = errorVal error := by
          simp [hr, itemToDict, find_ofList, lookupKV, strEntry, strsEntry, optStrEntry, linenoEntry, errorEntry, lookupKV_entry_ne, lookupKV_entry_one_ne, lookupKV_entry_hit, lookupKV_entry_one, orElse_none_fun]
        have hgty : getStr r "type" "KEYWORD" = "VAR" := by simp [getStr, hty]
        rw [itemFromDictF, hgty]
        simp [getStr_eq r "name" "" name hname,
          getStrs_eq r "value" value hvalue,
          getOptStr_eq r "scope" scope hscope,
          getOptStr_eq r "separator" separator hsep,
          getOptNat_lineno r lineno hl hlineno,
          getOptStr_error r error he herror]
      | returnI values lineno error =>
        simp only [wfItem, Bool.and_eq_true] at hwf
        obtain ⟨hl, he⟩ := hwf
        cases fuel with
        | zero => simp [itemSize] at hfuel
        | succ fl =>
        set r := itemToDict (.returnI values lineno error) with hr
        have hty : r.find "type" = some (.s "RETURN") := by
          simp [hr, itemToDict, find_ofList, lookupKV, strEntry, strsEntry, optStrEntry, linenoEntry, errorEntry, lookupKV_entry_ne, lookupKV_entry_one_ne, lookupKV_entry_hit, lookupKV_entry_one, orElse_none_fun]
        have hvalues : r.find "values" = (if values = [] then none else some (.strs values)) := by
          simp [hr, itemToDict, find_ofList, lookupKV, strEntry, strsEntry, optStrEntry, linenoEntry, errorEntry, lookupKV_entry_ne, lookupKV_entry_one_ne, lookupKV_entry_hit, lookupKV_entry_one, orElse_none_fun]
        have hlineno : r.find "lineno" = linenoVal lineno := by
          simp [hr, itemToDict, find_ofList, lookupKV, strEntry, strsEntry, optStrEntry, linenoEntry, errorEntry, lookupKV_entry_ne, lookupKV_entry_one_ne, lookupKV_entry_hit, lookupKV_entry_one, orElse_none_fun]
        have herror : r.find "error" = errorVal error := by
          simp [hr, itemToDict, find_ofList, lookupKV, strEntry, strsEntry, optStrEntry, linenoEntry, errorEntry, lookupKV_entry_ne, lookupKV_entry_one_ne, lookupKV_entry_hit, lookupKV_entry_one, orElse_none_fun]
        have hgty : getStr r "type" "KEYWORD" = "RETURN" := by simp [getStr, hty]
        rw [itemFromDictF, hgty]
        simp [getStrs_eq r "values" values hvalues,
          getOptNat_lineno r lineno hl hlineno,
          getOptStr_error r error he herror]
      | continueI lineno error =>
        simp only [wfItem, Bool.and_eq_true] at hwf
        obtain ⟨hl, he⟩ := hwf
        cases fuel with
        | zero => simp [itemSize] at hfuel
        | succ fl =>
        set r := itemToDict (.continueI lineno error) with hr
        have hty : r.find "type" = some (.s "CONTINUE") := by
          simp [hr, itemToDict, find_ofList, lookupKV, strEntry, strsEntry, optStrEntry, linenoEntry, errorEntry, lookupKV_entry_ne, lookupKV_entry_one_ne, lookupKV_entry_hit, lookupKV_entry_one, orElse_none_fun]
        have hlineno : r.find "lineno" = linenoVal lineno := by
          simp [hr, itemToDict, find_ofList, lookupKV, strEntry, strsEntry, optStrEntry, linenoEntry, errorEntry, lookupKV_entry_ne, lookupKV_entry_one_ne, lookupKV_entry_hit, lookupKV_entry_one, orElse_none_fun]
        have herror : r.find "error" = errorVal error := by
          simp [hr, itemToDict, find_ofList, lookupKV, strEntry, strsEntry, optStrEntry, linenoEntry, errorEntry, lookupKV_entry_ne, lookupKV_entry_one_ne, lookupKV_entry_hit, lookupKV_entry_one, orElse_none_fun]
        have hgty : getStr r "type" "KEYWORD" = "CONTINUE" := by simp [getStr, hty]
        rw [itemFromDictF, hgty]
        simp [getOptNat_lineno r lineno hl hlineno,
          getOptStr_error r error he herror]
      | breakI lineno error =>
        simp only [wfItem, Bool.and_eq_true] at hwf
        obtain ⟨hl, he⟩ := hwf
        cases fuel with
        | zero => simp [itemSize] at hfuel
        | succ fl =>
        set r := itemToDict (.breakI lineno error) with hr
        have hty : r.find "type" = some (.s "BREAK") := by
          simp [hr, itemToDict, find_ofList, lookupKV, strEntry, strsEntry, optStrEntry, linenoEntry, errorEntry, lookupKV_entry_ne, lookupKV_entry_one_ne, lookupKV_entry_hit, lookupKV_entry_one, orElse_none_fun]
        have hlineno : r.find "lineno" = linenoVal lineno := by
          simp [hr, itemToDict, find_ofList, lookupKV, strEntry, strsEntry, optStrEntry, linenoEntry, errorEntry, lookupKV_entry_ne, lookupKV_entry_one_ne, lookupKV_entry_hit, lookupKV_entry_one, orElse_none_fun]
        have herror : r.find "error" = errorVal error := by
          simp [hr, itemToDict, find_ofList, lookupKV, strEntry, strsEntry, optStrEntry, linenoEntry, errorEntry, lookupKV_entry_ne, lookupKV_entry_one_ne, lookupKV_entry_hit, lookupKV_entry_one, orElse_none_fun]
        have hgty : getStr r "type" "KEYWORD" = "BREAK" := by simp [getStr, hty]
        rw [itemFromDictF, hgty]
        simp [getOptNat_lineno r lineno hl hlineno,
          getOptStr_error r error he herror]
      | errorI values lineno error =>
        simp only [wfItem] at hwf
        cases fuel with
        | zero => simp [itemSize] at hfuel
        | succ fl =>
        set r := itemToDict (.errorI values lineno error) with hr
        have hty : r.find "type" = some (.s "ERROR") := by
          simp [hr, itemToDict, find_ofList, lookupKV, strEntry, strsEntry, optStrEntry, linenoEntry, errorEntry, lookupKV_entry_ne, lookupKV_entry_one_ne, lookupKV_entry_hit, lookupKV_entry_one, orElse_none_fun]
        have hvalues : r.find "values" = (if values = [] then none else some (.strs values)) := by
          simp [hr, itemToDict, find_ofList, lookupKV, strEntry, strsEntry, optStrEntry, linenoEntry, errorEntry, lookupKV_entry_ne, lookupKV_entry_one_ne, lookupKV_entry_hit, lookupKV_entry_one, orElse_none_fun]
        have hlineno : r.find "lineno" = linenoVal lineno := by
          simp [hr, itemToDict, find_ofList, lookupKV, strEntry, strsEntry, optStrEntry, linenoEntry, errorEntry, lookupKV_entry_ne, lookupKV_entry_one_ne, lookupKV_entry_hit, lookupKV_entry_one, orElse_none_fun]
        have herror : r.find "error" = some (.s error) := by
          simp [hr, itemToDict, find_ofList, lookupKV, strEntry, strsEntry, optStrEntry, linenoEntry, errorEntry, lookupKV_entry_ne, lookupKV_entry_one_ne, lookupKV_entry_hit, lookupKV_entry_one, orElse_none_fun]
        have hgty : getStr r "type" "KEYWORD" = "ERROR" := by simp [getStr, hty]
        rw [itemFromDictF, hgty]
        simp [getStrs_eq r "values" values hvalues,
          getOptNat_lineno r lineno hwf hlineno,
          getStr, herror]
    · intro b hsize hwf fuel hfuel
      cases b with
      | nil =>
        cases fuel with
        | zero => simp [bodySize] at hfuel
        | succ fl => simp [bodyToDicts, bodyFromDictsF]
      | cons h t =>
        simp only [wfBody, Bool.and_eq_true] at hwf
        obtain ⟨hwh, hwt⟩ := hwf
        have hh : sizeOf h < k := by simp [RBody.cons.sizeOf_spec] at hsize; omega
        have ht : sizeOf t < k := by simp [RBody.cons.sizeOf_spec] at hsize; omega
        cases fuel with
        | zero => simp [bodySize] at hfuel
        | succ fl =>
        have hf1 : itemSize h ≤ fl := by simp [bodySize] at hfuel; omega
        have hf2 : bodySize t ≤ fl := by simp [bodySize] at hfuel; omega
        have ih1 := (IH (sizeOf h) hh).1 h le_rfl hwh fl hf1
        have ih2 := (IH (sizeOf t) ht).2.1 t le_rfl hwt fl hf2
        simp [bodyToDicts, bodyFromDictsF, ih1, ih2]
    · intro br hsize hwf fuel hfuel
      obtain ⟨btype, condition, lineno, body⟩ := br
      simp only [wfIfBranch, Bool.and_eq_true] at hwf
      obtain ⟨hl, hwb⟩ := hwf
      have hbs : sizeOf body < k := by
        simp [RIfBranch.mk.sizeOf_spec] at hsize; omega
      cases fuel with
      | zero => simp [ifBranchSize] at hfuel
      | succ fl =>
      have hfl : bodySize body ≤ fl := by simp [ifBranchSize] at hfuel; omega
      have ih := (IH (sizeOf body) hbs).2.1 body le_rfl hwb fl hfl
      set r := ifBranchToDict (.mk btype condition lineno body) with hr
      have hty : r.find "type" = (if btype = "IF" then none else some (.s btype)) := by
        simp [hr, ifBranchToDict, find_ofList, lookupKV, strEntry, strsEntry, optStrEntry, linenoEntry, errorEntry, lookupKV_entry_ne, lookupKV_entry_one_ne, lookupKV_entry_hit, lookupKV_entry_one, orElse_none_fun]
      have hcond : r.find "condition" = condition.map .s := by
        simp [hr, ifBranchToDict, find_ofList, lookupKV, strEntry, strsEntry, optStrEntry, linenoEntry, errorEntry, lookupKV_entry_ne, lookupKV_entry_one_ne, lookupKV_entry_hit, lookupKV_entry_one, orElse_none_fun]
      have hbody : r.find "body" = bodyVal body := by
        simp [hr, ifBranchToDict, find_ofList, lookupKV, strEntry, strsEntry, optStrEntry, linenoEntry, errorEntry, lookupKV_entry_ne, lookupKV_entry_one_ne, lookupKV_entry_hit, lookupKV_entry_one, orElse_none_fun]
      have hlineno : r.find "lineno" = linenoVal lineno := by
        simp [hr, ifBranchToDict, find_ofList, lookupKV, strEntry, strsEntry, optStrEntry, linenoEntry, errorEntry, lookupKV_entry_ne, lookupKV_entry_one_ne, lookupKV_entry_hit, lookupKV_entry_one, orElse_none_fun]
      rw [ifBranchFromDictF, getRecs_body r body hbody, ih]
      simp [getStr_eq r "type" "IF" btype hty,
        getOptStr_eq r "condition" condition hcond,
        getOptNat_lineno r lineno hl hlineno]
    · intro bs hsize hwf fuel hfuel
      cases bs with
      | nil =>
        cases fuel with
        | zero => simp [ifBranchesSize] at hfuel
        | succ fl => simp [ifBranchesToDicts, ifBranchesFromDictsF]
      | cons h t =>
        simp only [wfIfBranches, Bool.and_eq_true] at hwf
        obtain ⟨hwh, hwt⟩ := hwf
        have hh : sizeOf h < k := by simp [RIfBranches.cons.sizeOf_spec] at hsize; omega
        have ht : sizeOf t < k := by simp [RIfBranches.cons.sizeOf_spec] at hsize; omega
        cases fuel with
        | zero => simp [ifBranchesSize] at hfuel
        | succ fl =>
        have hf1 : ifBranchSize h ≤ fl := by simp [ifBranchesSize] at hfuel; omega
        have hf2 : ifBranchesSize t ≤ fl := by simp [ifBranchesSize] at hfuel; omega
        have ih1 := (IH (sizeOf h) hh).2.2.1 h le_rfl hwh fl hf1
        have ih2 := (IH (sizeOf t) ht).2.2.2.1 t le_rfl hwt fl hf2
        simp [ifBranchesToDicts, ifBranchesFromDictsF, ih1, ih2]
    · intro br hsize hwf fuel hfuel
      obtain ⟨btype, patterns, patternType, assign, lineno, body⟩ := br
      simp only [wfTryBranch, Bool.and_eq_true] at hwf
      obtain ⟨hl, hwb⟩ := hwf
      have hbs : sizeOf body < k := by
        simp [RTryBranch.mk.sizeOf_spec] at hsize; omega
      cases fuel with
      | zero => simp [tryBranchSize] at hfuel
      | succ fl =>
      have hfl : bodySize body ≤ fl := by simp [tryBranchSize] at hfuel; omega
      have ih := (IH (sizeOf body) hbs).2.1 body le_rfl hwb fl hfl
      set r := tryBranchToDict (.mk btype patterns patternType assign lineno body) with hr
      have hty : r.find "type" = (if btype = "TRY" then none else some (.s btype)) := by
        simp [hr, tryBranchToDict, find_ofList, lookupKV, strEntry, strsEntry, optStrEntry, linenoEntry, errorEntry, lookupKV_entry_ne, lookupKV_entry_one_ne, lookupKV_entry_hit, lookupKV_entry_one, orElse_none_fun]
      have hpats : r.find "patterns" = (if patterns = [] then none else some (.strs patterns)) := by
        simp [hr, tryBranchToDict, find_ofList, lookupKV, strEntry, strsEntry, optStrEntry, linenoEntry, errorEntry, lookupKV_entry_ne, lookupKV_entry_one_ne, lookupKV_entry_hit, lookupKV_entry_one, orElse_none_fun]
      have hpt : r.find "pattern_type" = patternType.map .s := by
        simp [hr, tryBranchToDict, find_ofList, lookupKV, strEntry, strsEntry, optStrEntry, linenoEntry, errorEntry, lookupKV_entry_ne, lookupKV_entry_one_ne, lookupKV_entry_hit, lookupKV_entry_one, orElse_none_fun]
      have hvar : r.find "variable" = none := by
        simp [hr, tryBranchToDict, find_ofList, lookupKV, strEntry, strsEntry, optStrEntry, linenoEntry, errorEntry, lookupKV_entry_ne, lookupKV_entry_one_ne, lookupKV_entry_hit, lookupKV_entry_one, orElse_none_fun]
      have hassign : r.find "assign" = assign.map .s := by
        simp [hr, tryBranchToDict, find_ofList, lookupKV, strEntry, strsEntry, optStrEntry, linenoEntry, errorEntry, lookupKV_entry_ne, lookupKV_entry_one_ne, lookupKV_entry_hit, lookupKV_entry_one, orElse_none_fun]
      have hbody : r.find "body" = bodyVal body := by
        simp [hr, tryBranchToDict, find_ofList, lookupKV, strEntry, strsEntry, optStrEntry, linenoEntry, errorEntry, lookupKV_entry_ne, lookupKV_entry_one_ne, lookupKV_entry_hit, lookupKV_entry_one, orElse_none_fun]
      have hlineno : r.find "lineno" = linenoVal lineno := by
        simp [hr, tryBranchToDict, find_ofList, lookupKV, strEntry, strsEntry, optStrEntry, linenoEntry, errorEntry, lookupKV_entry_ne, lookupKV_entry_one_ne, lookupKV_entry_hit, lookupKV_entry_one, orElse_none_fun]
      rw [tryBranchFromDictF, getRecs_body r body hbody, ih, hvar]
      simp [getStr_eq r "type" "TRY" btype hty,
        getStrs_eq r "patterns" patterns hpats,
        getOptStr_eq r "pattern_type" patternType hpt,
        getOptStr_eq r "assign" assign hassign,
        getOptNat_lineno r lineno hl hlineno]
    · intro bs hsize hwf fuel hfuel
      cases bs with
      | nil =>
        cases fuel with
        | zero => simp [tryBranchesSize] at hfuel
        | succ fl => simp [tryBranchesToDicts, tryBranchesFromDictsF]
      | cons h t =>
        simp only [wfTryBranches, Bool.and_eq_true] at hwf
        obtain ⟨hwh, hwt⟩ := hwf
        have hh : sizeOf h < k := by simp [RTryBranches.cons.sizeOf_spec] at hsize; omega
        have ht : sizeOf t < k := by simp [RTryBranches.cons.sizeOf_spec] at hsize; omega
        cases fuel with
        | zero => simp [tryBranchesSize] at hfuel
        | succ fl =>
        have hf1 : tryBranchSize h ≤ fl := by simp [tryBranchesSize] at hfuel; omega
        have hf2 : tryBranchesSize t ≤ fl := by simp [tryBranchesSize] at hfuel; omega
        have ih1 := (IH (sizeOf h) hh).2.2.2.2.1 h le_rfl hwh fl hf1
        have ih2 := (IH (sizeOf t) ht).2.2.2.2.2 t le_rfl hwt fl hf2
        simp [tryBranchesToDicts, tryBranchesFromDictsF, ih1, ih2]

/-- Round trip at the canonical fuel: decoding the record of any
well-formed node reproduces the node. -/
theorem itemFromDict_toDict (n : RItem) (h : wfItem n = true) :
    itemFromDict (itemToDict n) = some n := by
  have h1 := (sizeFuelAux (sizeOf n)).1 n le_rfl
  exact (roundtripAux (sizeOf n)).1 n le_rfl h (2 * drecSize (itemToDict n)) h1

/-! ### C2 -/

/-- **C2, counterexample.** The claim fails as stated ("any attribute
values"): a `Continue` node with `lineno = 0` - a set, non-default
value that is falsy in Python - serialises without a `lineno` entry
(`if self.lineno:`), so rebuilding from the record yields a node with
`lineno = None`, not an equal node. -/
theorem record_roundtrip_counterexample :
    itemFromDict (itemToDict (.continueI (some 0) none))
      ≠ some (.continueI (some 0) none) := by decide

/-- **C2, amended.** For every node tree whose set attributes are
truthy (line numbers positive when set, error strings non-empty when
set, keyword types legitimate), `from_record(to_record(node))`
reproduces a node equal to the original; the running nodes carry no
transient execution status, so nothing further is ignored. -/
theorem record_roundtrip_spec (n : RItem) (h : wfItem n = true) :
    itemFromDict (itemToDict n) = some n :=
  itemFromDict_toDict n h

/-- Witness for C2 at a concrete input: a FOR node with a nested body
containing a keyword call, a VAR and a BREAK round-trips. -/
theorem record_roundtrip_spec_witness :
    itemFromDict (itemToDict (.forI ["${i}"] "IN RANGE" ["3"] none none none
        (some 2) none
        (.cons (.keyword "Log" ["${i}"] [] "KEYWORD" (some 3))
          (.cons (.varI "${x}" ["${i}"] (some "SUITE") none (some 4) none)
            (.cons (.breakI (some 5) none) .nil)))))
      = some (.forI ["${i}"] "IN RANGE" ["3"] none none none (some 2) none
        (.cons (.keyword "Log" ["${i}"] [] "KEYWORD" (some 3))
          (.cons (.varI "${x}" ["${i}"] (some "SUITE") none (some 4) none)
            (.cons (.breakI (some 5) none) .nil)))) :=
  record_roundtrip_spec (.forI ["${i}"] "IN RANGE" ["3"] none none none
      (some 2) none
      (.cons (.keyword "Log" ["${i}"] [] "KEYWORD" (some 3))
        (.cons (.varI "${x}" ["${i}"] (some "SUITE") none (some 4) none)
          (.cons (.breakI (some 5) none) .nil)))) (by decide)

/-! ### C3 -/

/-- **C3, counterexample.** A well-formed record using the RF 6.1
compatibility key `variables` is accepted by `For.from_dict` (which
moves it to `assign`), but the rebuilt node re-serialises with the
canonical `assign` key, so `to_record(from_record(r)) ≠ r`. -/
theorem record_inverse_counterexample :
    itemFromDict (.ofList [("type", .s "FOR"), ("variables", .strs ["${x}"])])
      = some (.forI ["${x}"] "IN" [] none none none none none .nil) ∧
    itemToDict (.forI ["${x}"] "IN" [] none none none none none .nil)
      ≠ .ofList [("type", .s "FOR"), ("variables", .strs ["${x}"])] := by
  refine ⟨by decide, by decide⟩

/-- **C3, amended.** On canonical records - those produced by
`to_record` from a well-formed node, which in particular use `assign`
rather than the RF 6.1 compatibility keys `variables`/`variable` -
the inverse is exact: rebuilding and re-serialising reproduces the
record. -/
theorem record_inverse_spec (n : RItem) (h : wfItem n = true) (m : RItem)
    (hm : itemFromDict (itemToDict n) = some m) :
    itemToDict m = itemToDict n := by
  have := itemFromDict_toDict n h
  rw [this] at hm
  cases hm
  rfl

/-- Witness for C3 at a concrete input: the record of a TRY/EXCEPT tree
re-serialises exactly. -/
theorem record_inverse_spec_witness :
    itemToDict (.tryI (.cons (.mk "TRY" [] none none none
        (.cons (.returnI ["${v}"] (some 3) none) .nil))
      (.cons (.mk "EXCEPT" ["Expected *"] (some "GLOB") (some "${err}") (some 4) .nil)
        .nil)) (some 2) none)
      = itemToDict (.tryI (.cons (.mk "TRY" [] none none none
        (.cons (.returnI ["${v}"] (some 3) none) .nil))
      (.cons (.mk "EXCEPT" ["Expected *"] (some "GLOB") (some "${err}") (some 4) .nil)
        .nil)) (some 2) none) :=
  record_inverse_spec (.tryI (.cons (.mk "TRY" [] none none none
        (.cons (.returnI ["${v}"] (some 3) none) .nil))
      (.cons (.mk "EXCEPT" ["Expected *"] (some "GLOB") (some "${err}") (some 4) .nil)
        .nil)) (some 2) none) (by decide)
    (.tryI (.cons (.mk "TRY" [] none none none
        (.cons (.returnI ["${v}"] (some 3) none) .nil))
      (.cons (.mk "EXCEPT" ["Expected *"] (some "GLOB") (some "${err}") (some 4) .nil)
        .nil)) (some 2) none) (by decide)

theorem isSome_linenoVal (v : Option Nat) :
    (linenoVal v).isSome = truthyNat v := by
  cases v with
  | none => rfl
  | some n => by_cases h : n = 0 <;> simp [linenoVal, truthyNat, h]

theorem isSome_errorVal (v : Option String) :
    (errorVal v).isSome = truthyStr v := by
  cases v with
  | none => rfl
  | some e => by_cases h : e = "" <;> simp [errorVal, truthyStr, h]

/-! ### C7 -/

/-- **C7, counterexample.** Two failures of the "key present iff
attribute non-default" claim: an `Error` node at its constructor
defaults (`error = ""`) still serialises an `error` entry
(`Error.to_dict` adds it unconditionally, line 431); and a `Continue`
node with the non-default `lineno = 0` serialises no `lineno` entry
(`if self.lineno:` is false for 0). -/
theorem serialization_defaults_counterexample :
    hasKey (itemToDict (.errorI [] none "")) "error" = true ∧
    hasKey (itemToDict (.continueI (some 0) none)) "lineno" = false := by
  refine ⟨by decide, by decide⟩

/-- **C7, amended.** The listed keys appear in a record exactly when
the corresponding attribute is truthy (set to a non-default and
non-falsy value: positive line numbers, non-empty strings, non-empty
collections), with one exception forced by the counterexample: the
`Error` node's `error` entry is always present.  Stated for the
`lineno`/`error` entries of every body-item variant, and the `args`,
`doc`, `tags`, `timeout`, `lineno`, `error` entries of `UserKeyword`
and the `doc`, `tags`, `template`, `error` entries of `TestCase`. -/
theorem serialization_keys_spec :
    (∀ name args assign ktype lineno,
      hasKey (itemToDict (.keyword name args assign ktype lineno)) "lineno"
        = truthyNat lineno) ∧
    (∀ assign flavor values start mode fill lineno error body,
      hasKey (itemToDict (.forI assign flavor values start mode fill lineno error body))
          "lineno" = truthyNat lineno ∧
      hasKey (itemToDict (.forI assign flavor values start mode fill lineno error body))
          "error" = truthyStr error) ∧
    (∀ condition limit onLimit onLimitMessage lineno error body,
      hasKey (itemToDict (.whileI condition limit onLimit onLimitMessage lineno error body))
          "lineno" = truthyNat lineno ∧
      hasKey (itemToDict (.whileI condition limit onLimit onLimitMessage lineno error body))
          "error" = truthyStr error) ∧
    (∀ branches lineno error,
      hasKey (itemToDict (.ifI branches lineno error)) "lineno" = truthyNat lineno ∧
      hasKey (itemToDict (.ifI branches lineno error)) "error" = truthyStr error) ∧
    (∀ branches lineno error,
      hasKey (itemToDict (.tryI branches lineno error)) "lineno" = truthyNat lineno ∧
      hasKey (itemToDict (.tryI branches lineno error)) "error" = truthyStr error) ∧
    (∀ name value scope separator lineno error,
      hasKey (itemToDict (.varI name value scope separator lineno error)) "lineno"
        = truthyNat lineno ∧
      hasKey (itemToDict (.varI name value scope separator lineno error)) "error"
        = truthyStr error) ∧
    (∀ values lineno error,
      hasKey (itemToDict (.returnI values lineno error)) "lineno" = truthyNat lineno ∧
      hasKey (itemToDict (.returnI values lineno error)) "error" = truthyStr error) ∧
    (∀ lineno error,
      hasKey (itemToDict (.continueI lineno error)) "lineno" = truthyNat lineno ∧
      hasKey (itemToDict (.continueI lineno error)) "error" = truthyStr error) ∧
    (∀ lineno error,
      hasKey (itemToDict (.breakI lineno error)) "lineno" = truthyNat lineno ∧
      hasKey (itemToDict (.breakI lineno error)) "error" = truthyStr error) ∧
    (∀ values lineno error,
      hasKey (itemToDict (.errorI values lineno error)) "lineno" = truthyNat lineno ∧
      hasKey (itemToDict (.errorI values lineno error)) "error" = true) ∧
    (∀ u : UKFull,
      hasKey (ukToDict u) "args" = !(u.args.map decorateArg).isEmpty ∧
      hasKey (ukToDict u) "doc" = !(u.doc == "") ∧
      hasKey (ukToDict u) "tags" = !u.tags.isEmpty ∧
      hasKey (ukToDict u) "timeout" = truthyStr u.timeout ∧
      hasKey (ukToDict u) "lineno" = truthyNat u.lineno ∧
      hasKey (ukToDict u) "error" = truthyStr u.error) ∧
    (∀ t : TCFull,
      hasKey (tcToDict t) "doc" = !(t.doc == "") ∧
      hasKey (tcToDict t) "tags" = !t.tags.isEmpty ∧
      hasKey (tcToDict t) "template" = truthyStr t.template ∧
      hasKey (tcToDict t) "error" = truthyStr t.error) := by
  refine ⟨?_, ?_, ?_, ?_, ?_, ?_, ?_, ?_, ?_, ?_, ?_, ?_⟩
  · intro name args assign ktype lineno
    have h : (itemToDict (.keyword name args assign ktype lineno)).find "lineno"
        = linenoVal lineno := by
      simp [itemToDict, find_ofList, lookupKV, strEntry, strsEntry, optStrEntry, linenoEntry, errorEntry, truthyStrEntry, lookupKV_entry_ne, lookupKV_entry_one_ne, lookupKV_entry_hit, lookupKV_entry_one, orElse_none_fun]
    rw [hasKey, h, isSome_linenoVal]
  · intro assign flavor values start mode fill lineno error body
    refine ⟨?_, ?_⟩
    · have h : (itemToDict (.forI assign flavor values start mode fill lineno error
            body)).find "lineno" = linenoVal lineno := by
        simp [itemToDict, find_ofList, lookupKV, strEntry, strsEntry, optStrEntry, linenoEntry, errorEntry, truthyStrEntry, lookupKV_entry_ne, lookupKV_entry_one_ne, lookupKV_entry_hit, lookupKV_entry_one, orElse_none_fun]
      rw [hasKey, h, isSome_linenoVal]
    · have h : (itemToDict (.forI assign flavor values start mode fill lineno error
            body)).find "error" = errorVal error := by
        simp [itemToDict, find_ofList, lookupKV, strEntry, strsEntry, optStrEntry, linenoEntry, errorEntry, truthyStrEntry, lookupKV_entry_ne, lookupKV_entry_one_ne, lookupKV_entry_hit, lookupKV_entry_one, orElse_none_fun]
      rw [hasKey, h, isSome_errorVal]
  · intro condition limit onLimit onLimitMessage lineno error body
    refine ⟨?_, ?_⟩
    · have h : (itemToDict (.whileI condition limit onLimit onLimitMessage lineno
            error body)).find "lineno" = linenoVal lineno := by
        simp [itemToDict, find_ofList, lookupKV, strEntry, strsEntry, optStrEntry, linenoEntry, errorEntry, truthyStrEntry, lookupKV_entry_ne, lookupKV_entry_one_ne, lookupKV_entry_hit, lookupKV_entry_one, orElse_none_fun]
      rw [hasKey, h, isSome_linenoVal]
    · have h : (itemToDict (.whileI condition limit onLimit onLimitMessage lineno
            error body)).find "error" = errorVal error := by
        simp [itemToDict, find_ofList, lookupKV, strEntry, strsEntry, optStrEntry, linenoEntry, errorEntry, truthyStrEntry, lookupKV_entry_ne, lookupKV_entry_one_ne, lookupKV_entry_hit, lookupKV_entry_one, orElse_none_fun]
      rw [hasKey, h, isSome_errorVal]
  · intro branches lineno error
    refine ⟨?_, ?_⟩
    · have h : (itemToDict (.ifI branches lineno error)).find "lineno"
          = linenoVal lineno := by
        simp [itemToDict, find_ofList, lookupKV, strEntry, strsEntry, optStrEntry, linenoEntry, errorEntry, truthyStrEntry, lookupKV_entry_ne, lookupKV_entry_one_ne, lookupKV_entry_hit, lookupKV_entry_one, orElse_none_fun]
      rw [hasKey, h, isSome_linenoVal]
    · have h : (itemToDict (.ifI branches lineno error)).find "error"
          = errorVal error := by
        simp [itemToDict, find_ofList, lookupKV, strEntry, strsEntry, optStrEntry, linenoEntry, errorEntry, truthyStrEntry, lookupKV_entry_ne, lookupKV_entry_one_ne, lookupKV_entry_hit, lookupKV_entry_one, orElse_none_fun]
      rw [hasKey, h, isSome_errorVal]
  · intro branches lineno error
    refine ⟨?_, ?_⟩
    · have h : (itemToDict (.tryI branches lineno error)).find "lineno"
          = linenoVal lineno := by
        simp [itemToDict, find_ofList, lookupKV, strEntry, strsEntry, optStrEntry, linenoEntry, errorEntry, truthyStrEntry, lookupKV_entry_ne, lookupKV_entry_one_ne, lookupKV_entry_hit, lookupKV_entry_one, orElse_none_fun]
      rw [hasKey, h, isSome_linenoVal]
    · have h : (itemToDict (.tryI branches lineno error)).find "error"
          = errorVal error := by
        simp [itemToDict, find_ofList, lookupKV, strEntry, strsEntry, optStrEntry, linenoEntry, errorEntry, truthyStrEntry, lookupKV_entry_ne, lookupKV_entry_one_ne, lookupKV_entry_hit, lookupKV_entry_one, orElse_none_fun]
      rw [hasKey, h, isSome_errorVal]
  · intro name value scope separator lineno error
    refine ⟨?_, ?_⟩
    · have h : (itemToDict (.varI name value scope separator lineno error)).find
          "lineno" = linenoVal lineno := by
        simp [itemToDict, find_ofList, lookupKV, strEntry, strsEntry, optStrEntry, linenoEntry, errorEntry, truthyStrEntry, lookupKV_entry_ne, lookupKV_entry_one_ne, lookupKV_entry_hit, lookupKV_entry_one, orElse_none_fun]
      rw [hasKey, h, isSome_linenoVal]
    · have h : (itemToDict (.varI name value scope separator lineno error)).find
          "error" = errorVal error := by
        simp [itemToDict, find_ofList, lookupKV, strEntry, strsEntry, optStrEntry, linenoEntry, errorEntry, truthyStrEntry, lookupKV_entry_ne, lookupKV_entry_one_ne, lookupKV_entry_hit, lookupKV_entry_one, orElse_none_fun]
      rw [hasKey, h, isSome_errorVal]
  · intro values lineno error
    refine ⟨?_, ?_⟩
    · have h : (itemToDict (.returnI values lineno error)).find "lineno"
          = linenoVal lineno := by
        simp [itemToDict, find_ofList, lookupKV, strEntry, strsEntry, optStrEntry, linenoEntry, errorEntry, truthyStrEntry, lookupKV_entry_ne, lookupKV_entry_one_ne, lookupKV_entry_hit, lookupKV_entry_one, orElse_none_fun]
      rw [hasKey, h, isSome_linenoVal]
    · have h : (itemToDict (.returnI values lineno error)).find "error"
          = errorVal error := by
        simp [itemToDict, find_ofList, lookupKV, strEntry, strsEntry, optStrEntry, linenoEntry, errorEntry, truthyStrEntry, lookupKV_entry_ne, lookupKV_entry_one_ne, lookupKV_entry_hit, lookupKV_entry_one, orElse_none_fun]
      rw [hasKey, h, isSome_errorVal]
  · intro lineno error
    refine ⟨?_, ?_⟩
    · have h : (itemToDict (.continueI lineno error)).find "lineno"
          = linenoVal lineno := by
        simp [itemToDict, find_ofList, lookupKV, strEntry, strsEntry, optStrEntry, linenoEntry, errorEntry, truthyStrEntry, lookupKV_entry_ne, lookupKV_entry_one_ne, lookupKV_entry_hit, lookupKV_entry_one, orElse_none_fun]
      rw [hasKey, h, isSome_linenoVal]
    · have h : (itemToDict (.continueI lineno error)).find "error"
          = errorVal error := by
        simp [itemToDict, find_ofList, lookupKV, strEntry, strsEntry, optStrEntry, linenoEntry, errorEntry, truthyStrEntry, lookupKV_entry_ne, lookupKV_entry_one_ne, lookupKV_entry_hit, lookupKV_entry_one, orElse_none_fun]
      rw [hasKey, h, isSome_errorVal]
  · intro lineno error
    refine ⟨?_, ?_⟩
    · have h : (itemToDict (.breakI lineno error)).find "lineno"
          = linenoVal lineno := by
        simp [itemToDict, find_ofList, lookupKV, strEntry, strsEntry, optStrEntry, linenoEntry, errorEntry, truthyStrEntry, lookupKV_entry_ne, lookupKV_entry_one_ne, lookupKV_entry_hit, lookupKV_entry_one, orElse_none_fun]
      rw [hasKey, h, isSome_linenoVal]
    · have h : (itemToDict (.breakI lineno error)).find "error"
          = errorVal error := by
        simp [itemToDict, find_ofList, lookupKV, strEntry, strsEntry, optStrEntry, linenoEntry, errorEntry, truthyStrEntry, lookupKV_entry_ne, lookupKV_entry_one_ne, lookupKV_entry_hit, lookupKV_entry_one, orElse_none_fun]
      rw [hasKey, h, isSome_errorVal]
  · intro values lineno error
    refine ⟨?_, ?_⟩
    · have h : (itemToDict (.errorI values lineno error)).find "lineno"
          = linenoVal lineno := by
        simp [itemToDict, find_ofList, lookupKV, strEntry, strsEntry, optStrEntry, linenoEntry, errorEntry, truthyStrEntry, lookupKV_entry_ne, lookupKV_entry_one_ne, lookupKV_entry_hit, lookupKV_entry_one, orElse_none_fun]
      rw [hasKey, h, isSome_linenoVal]
    · have h : (itemToDict (.errorI values lineno error)).find "error"
          = some (.s error) := by
        simp [itemToDict, find_ofList, lookupKV, strEntry, strsEntry, optStrEntry, linenoEntry, errorEntry, truthyStrEntry, lookupKV_entry_ne, lookupKV_entry_one_ne, lookupKV_entry_hit, lookupKV_entry_one, orElse_none_fun]
      rw [hasKey, h]
      rfl
  · intro u
    refine ⟨?_, ?_, ?_, ?_, ?_, ?_⟩
    · have h : (ukToDict u).find "args"
          = (if u.args.map decorateArg = [] then none
             else some (.strs (u.args.map decorateArg))) := by
        simp [ukToDict, find_ofList, lookupKV, strEntry, strsEntry, optStrEntry, linenoEntry, errorEntry, truthyStrEntry, lookupKV_entry_ne, lookupKV_entry_one_ne, lookupKV_entry_hit, lookupKV_entry_one, orElse_none_fun]
      rw [hasKey, h]
      by_cases hc : u.args.map decorateArg = [] <;> simp [hc]
    · have h : (ukToDict u).find "doc"
          = (if u.doc = "" then none else some (.s u.doc)) := by
        simp [ukToDict, find_ofList, lookupKV, strEntry, strsEntry, optStrEntry, linenoEntry, errorEntry, truthyStrEntry, lookupKV_entry_ne, lookupKV_entry_one_ne, lookupKV_entry_hit, lookupKV_entry_one, orElse_none_fun]
      rw [hasKey, h]
      by_cases hc : u.doc = "" <;> simp [hc]
    · have h : (ukToDict u).find "tags"
          = (if u.tags = [] then none else some (.strs u.tags)) := by
        simp [ukToDict, find_ofList, lookupKV, strEntry, strsEntry, optStrEntry, linenoEntry, errorEntry, truthyStrEntry, lookupKV_entry_ne, lookupKV_entry_one_ne, lookupKV_entry_hit, lookupKV_entry_one, orElse_none_fun]
      rw [hasKey, h]
      by_cases hc : u.tags = [] <;> simp [hc]
    · have h : (ukToDict u).find "timeout" = errorVal u.timeout := by
        simp [ukToDict, find_ofList, lookupKV, strEntry, strsEntry, optStrEntry, linenoEntry, errorEntry, truthyStrEntry, lookupKV_entry_ne, lookupKV_entry_one_ne, lookupKV_entry_hit, lookupKV_entry_one, orElse_none_fun]
      rw [hasKey, h, isSome_errorVal]
    · have h : (ukToDict u).find "lineno" = linenoVal u.lineno := by
        simp [ukToDict, find_ofList, lookupKV, strEntry, strsEntry, optStrEntry, linenoEntry, errorEntry, truthyStrEntry, lookupKV_entry_ne, lookupKV_entry_one_ne, lookupKV_entry_hit, lookupKV_entry_one, orElse_none_fun]
      rw [hasKey, h, isSome_linenoVal]
    · have h : (ukToDict u).find "error" = errorVal u.error := by
        simp [ukToDict, find_ofList, lookupKV, strEntry, strsEntry, optStrEntry, linenoEntry, errorEntry, truthyStrEntry, lookupKV_entry_ne, lookupKV_entry_one_ne, lookupKV_entry_hit, lookupKV_entry_one, orElse_none_fun]
      rw [hasKey, h, isSome_errorVal]
  · intro t
    refine ⟨?_, ?_, ?_, ?_⟩
    · have h : (tcToDict t).find "doc"
          = (if t.doc = "" then none else some (.s t.doc)) := by
        simp [tcToDict, find_ofList, lookupKV, strEntry, strsEntry, optStrEntry, linenoEntry, errorEntry, truthyStrEntry, lookupKV_entry_ne, lookupKV_entry_one_ne, lookupKV_entry_hit, lookupKV_entry_one, orElse_none_fun]
      rw [hasKey, h]
      by_cases hc : t.doc = "" <;> simp [hc]
    · have h : (tcToDict t).find "tags"
          = (if t.tags = [] then none else some (.strs t.tags)) := by
        simp [tcToDict, find_ofList, lookupKV, strEntry, strsEntry, optStrEntry, linenoEntry, errorEntry, truthyStrEntry, lookupKV_entry_ne, lookupKV_entry_one_ne, lookupKV_entry_hit, lookupKV_entry_one, orElse_none_fun]
      rw [hasKey, h]
      by_cases hc : t.tags = [] <;> simp [hc]
    · have h : (tcToDict t).find "template" = errorVal t.template := by
        simp [tcToDict, find_ofList, lookupKV, strEntry, strsEntry, optStrEntry, linenoEntry, errorEntry, truthyStrEntry, lookupKV_entry_ne, lookupKV_entry_one_ne, lookupKV_entry_hit, lookupKV_entry_one, orElse_none_fun]
      rw [hasKey, h, isSome_errorVal]
    · have h : (tcToDict t).find "error" = errorVal t.error := by
        simp [tcToDict, find_ofList, lookupKV, strEntry, strsEntry, optStrEntry, linenoEntry, errorEntry, truthyStrEntry, lookupKV_entry_ne, lookupKV_entry_one_ne, lookupKV_entry_hit, lookupKV_entry_one, orElse_none_fun]
      rw [hasKey, h, isSome_errorVal]

/-! ### C1 -/

theorem strInfix_middle (p a q : String) : strInfix a (p ++ a ++ q) := by
  refine ⟨p.data, q.data, ?_⟩
  simp [String.data_append]

/-- **C1.** Scope resolution of a `Var` node behaves as specified: an
absent or empty scope token resolves to the local store; otherwise the
token is first variable-substituted (substitution failure surfaces as
an invalid-scope error); the substituted value is compared
case-insensitively (via upper-casing) against GLOBAL/SUITE/TEST/LOCAL,
with TASK treated as TEST; any other substituted value fails with an
error message that contains the offending value and lists the accepted
values. -/
theorem var_get_scope_spec (replaceString : String → Except String String)
    (scope : Option String) :
    (scope = none ∨ scope = some "" → getScope replaceString scope = .ok "local") ∧
    (∀ s, scope = some s → s ≠ "" →
      (∀ e, replaceString s = .error e →
        getScope replaceString scope = .error ("Invalid VAR scope: " ++ e)) ∧
      (∀ sc, replaceString s = .ok sc →
        (supper sc = "TASK" → getScope replaceString scope = .ok "test") ∧
        (supper sc ∈ acceptedScopes → getScope replaceString scope = .ok (slower sc)) ∧
        (supper sc ≠ "TASK" → supper sc ∉ acceptedScopes →
          ∃ msg, getScope replaceString scope = .error msg ∧
            strInfix sc msg ∧
            strInfix "'GLOBAL', 'SUITE', 'TEST', 'TASK' and 'LOCAL'" msg))) := by
  refine ⟨?_, ?_⟩
  · rintro (rfl | rfl) <;> simp [getScope]
  · rintro s rfl hs
    refine ⟨?_, ?_⟩
    · intro e he
      simp [getScope, hs, he]
    · intro sc hsc
      refine ⟨?_, ?_, ?_⟩
      · intro htask
        simp [getScope, hs, hsc, htask]
      · intro hmem
        by_cases htask : supper sc = "TASK"
        · have : ("TASK" : String) ∈ acceptedScopes := htask ▸ hmem
          simp [acceptedScopes] at this
        · simp [getScope, hs, hsc, htask, hmem]
      · intro htask hmem
        refine ⟨"Invalid VAR scope: Value '" ++ sc ++
          "' is not accepted. Valid values are 'GLOBAL', 'SUITE', 'TEST', 'TASK' and 'LOCAL'.",
          ?_, ?_, ?_⟩
        · simp [getScope, hs, hsc, htask, hmem]
        · exact strInfix_middle "Invalid VAR scope: Value '" sc
            "' is not accepted. Valid values are 'GLOBAL', 'SUITE', 'TEST', 'TASK' and 'LOCAL'."
        · have : ("Invalid VAR scope: Value '" ++ sc ++
              "' is not accepted. Valid values are 'GLOBAL', 'SUITE', 'TEST', 'TASK' and 'LOCAL'.")
              = ("Invalid VAR scope: Value '" ++ sc ++ "' is not accepted. Valid values are ")
                ++ "'GLOBAL', 'SUITE', 'TEST', 'TASK' and 'LOCAL'" ++ "." := by
            simp [String.append_assoc]
          rw [this]
          exact strInfix_middle _ _ _

/-- Witness for C1 at concrete inputs: identity substitution, scope
token `"Task"` resolves to the test store. -/
theorem var_get_scope_spec_witness :
    getScope (fun s => .ok s) (some "Task") = .ok "test" :=
  (((var_get_scope_spec (fun s => .ok s) (some "Task")).2 "Task" rfl
    (by decide)).2 "Task" rfl).1 (by decide)

/-! ### C8 -/

/-- **C8.** `source` is derived, never stored, on every class except
the path-carrying ones: a body item's source equals its parent's source
and is `None` without a parent; a `ResourceFile`'s source is its
explicitly stored path when set, otherwise its owner's source,
otherwise `None`; a `UserKeyword`'s, `Variable`'s and `Import`'s
source is its owner's source (`None` without an owner). -/
theorem source_derivation_spec :
    (∀ p, sourceOf (.bodyItem (some p)) = sourceOf p) ∧
    (sourceOf (.bodyItem none) = none) ∧
    (∀ stored owner, stored.isSome → sourceOf (.resource stored owner) = stored) ∧
    (∀ o, sourceOf (.resource none (some o)) = sourceOf o) ∧
    (sourceOf (.resource none none) = none) ∧
    (∀ o, sourceOf (.userKeyword (some o)) = sourceOf o) ∧
    (sourceOf (.userKeyword none) = none) ∧
    (∀ o, sourceOf (.variableNode (some o)) = sourceOf o) ∧
    (sourceOf (.variableNode none) = none) ∧
    (∀ o, sourceOf (.importNode (some o)) = sourceOf o) ∧
    (sourceOf (.importNode none) = none) := by
  refine ⟨fun p => rfl, rfl, ?_, fun o => rfl, rfl, fun o => rfl, rfl,
    fun o => rfl, rfl, fun o => rfl, rfl⟩
  rintro ⟨⟩ owner h
  · simp at h
  · rfl

/-- Witness for C8 at a concrete input: a resource file with an
explicitly stored path keeps it even under an owner with a different
source. -/
theorem source_derivation_spec_witness :
    sourceOf (.resource (some "res.resource") (some (.suite (some "suite.robot") none)))
      = some "res.resource" :=
  source_derivation_spec.2.2.1 (some "res.resource")
    (some (.suite (some "suite.robot") none)) (by decide)

/-! ### C10 -/

/-- **C10.** `ResourceFile.name` is `None` exactly when the resource
file has an owner or no source; otherwise it is the stem of the source
path. -/
theorem resource_file_name_spec (r : ResourceFileM) :
    (r.name = none ↔ (r.owner.isSome ∨ r.source = none)) ∧
    (∀ p, r.owner = none → r.source = some p → r.name = some (pathStem p)) := by
  obtain ⟨stored, owner⟩ := r
  cases owner with
  | some o => simp [ResourceFileM.name]
  | none =>
    cases hs : ResourceFileM.source ⟨stored, none⟩ with
    | none => simp [ResourceFileM.name, hs]
    | some p => simp [ResourceFileM.name, hs]

/-- Witness for C10 at a concrete input: a stand-alone resource file
with source `dir/res.robot` is named `res`. -/
theorem resource_file_name_spec_witness :
    (ResourceFileM.mk (some "dir/res.robot") none).name = some (pathStem "dir/res.robot") :=
  (resource_file_name_spec (ResourceFileM.mk (some "dir/res.robot") none)).2
    "dir/res.robot" rfl rfl

/-! ### C4 -/

/-- **C4.** With `run` true, a node carrying a pre-recorded structural
error fails immediately with exactly that error message (`DataError`
with the `syntax` flag) and performs no other effect, regardless of
dry-run mode; and an `Error` node, when run, always fails with its
mandatory message - even in dry-run mode. -/
theorem structural_error_spec :
    (∀ (v : VarN) (ctx : Ctx) e, v.error = some e →
      v.runM ctx true = ⟨true, [], .dataError e true⟩) ∧
    (∀ values error dryRun e, error = some e →
      returnRun values error dryRun true = ⟨true, [], .dataError e true⟩) ∧
    (∀ error dryRun e, error = some e →
      continueRun error dryRun true = ⟨true, [], .dataError e true⟩) ∧
    (∀ error dryRun e, error = some e →
      breakRun error dryRun true = ⟨true, [], .dataError e true⟩) ∧
    (∀ error execute e, error = some e →
      runnerGuard error true execute = ⟨true, [], .dataError e true⟩) ∧
    (∀ msg, errorRun msg true = ⟨true, [], .dataError msg false⟩) := by
  refine ⟨?_, ?_, ?_, ?_, ?_, ?_⟩ <;> intros <;>
    simp_all [VarN.runM, returnRun, continueRun, breakRun, runnerGuard, errorRun]

/-- Witness for C4 at a concrete input: a `Var` node carrying the
structural error `"bad syntax"` fails with it, untouched by the store. -/
theorem structural_error_spec_witness :
    (VarN.mk "${x}" ["v"] none none none (some "bad syntax")).runM
      ⟨false, fun s => .ok s, fun _ => .ok "v"⟩ true
      = ⟨true, [], .dataError "bad syntax" true⟩ :=
  structural_error_spec.1 _ _ "bad syntax" rfl

/-! ### C5 -/

/-- **C5.** In dry-run mode (`run` true, no structural error) a `Var`
node performs no store mutation and `Return`/`Continue`/`Break` raise
no jump signal, yet all of them still pass through the
`StatusReporter` wrapper (`reported = true`) and report a normal
completion. -/
theorem dry_run_spec :
    (∀ (v : VarN) (ctx : Ctx), v.error = none → ctx.dryRun = true →
      v.runM ctx true = ⟨true, [], .passed⟩) ∧
    (∀ values error, error = none →
      returnRun values error true true = ⟨true, [], .passed⟩) ∧
    (∀ error, error = none → continueRun error true true = ⟨true, [], .passed⟩) ∧
    (∀ error, error = none → breakRun error true true = ⟨true, [], .passed⟩) := by
  refine ⟨?_, ?_, ?_, ?_⟩ <;> intros <;>
    simp_all [VarN.runM, returnRun, continueRun, breakRun]

/-- Witness for C5 at a concrete input: a scoped `Var` node in dry-run
mode mutates nothing and passes. -/
theorem dry_run_spec_witness :
    (VarN.mk "${x}" ["v"] (some "SUITE") none none none).runM
      ⟨true, fun s => .ok s, fun _ => .ok "v"⟩ true
      = ⟨true, [], .passed⟩ :=
  dry_run_spec.1 (VarN.mk "${x}" ["v"] (some "SUITE") none none none)
    ⟨true, fun s => .ok s, fun _ => .ok "v"⟩ rfl rfl

/-! ### C6 -/

/-- **C6.** After assigning a name, a `UserKeyword` matches call-site
names in exactly one of two mutually exclusive modes, determined solely
by whether the assigned name contains embedded-argument placeholder
syntax: with placeholders, the compiled matcher stored by the setter is
applied to the call-site text; without them, case- and
underscore-insensitive literal-name equality is used.  The matcher is
compiled once, by the `name` setter, and `matches` only reads the
stored matcher. -/
theorem user_keyword_matches_spec (uk : UKMatch) (n c : String) :
    ((uk.setName n).embedded = fromName n) ∧
    (∀ segs, fromName n = some segs →
      (uk.setName n).matches c = matchSegs segs c.data) ∧
    (fromName n = none → (uk.setName n).matches c = literalEq n c) := by
  refine ⟨rfl, ?_, ?_⟩
  · intro segs h
    simp [UKMatch.setName, UKMatch.matches, h]
  · intro h
    simp [UKMatch.setName, UKMatch.matches, h]

/-- Witness for C6 at concrete inputs: the keyword name
`Login as ${user}` is compiled into a literal segment and a
placeholder, and matching `Login as admin` goes through the compiled
matcher. -/
theorem user_keyword_matches_spec_witness :
    ((UKMatch.mk "" none).setName "Login as $\x7buser\x7d").matches "Login as admin"
      = matchSegs [.lit "Login as ", .placeholder "user"] "Login as admin".data :=
  ((user_keyword_matches_spec (UKMatch.mk "" none)
    "Login as $\x7buser\x7d" "Login as admin").2.1
    [.lit "Login as ", .placeholder "user"] (by decide))

/-! ### C9 -/

/-- **C9.** `has_setup`/`has_teardown` answer without allocating (the
slot is untouched by the query and reflects the truthiness of its
contents), while reading the `setup`/`teardown` property on a keyword
that has none materialises an empty fixture into the slot; hence
`has_teardown` is false before the first `teardown` access, and
afterwards the slot is non-`None` while `has_teardown` still reports
false. -/
theorem lazy_fixture_spec (uk : UKFix) :
    ((uk.hasSetupS).2 = uk) ∧ ((uk.hasTeardownS).2 = uk) ∧
    (∀ k, uk.setupSlot = some k →
      (uk.hasSetupS).1 = kwTruthy k ∧ uk.getSetup = (k, uk)) ∧
    (∀ k, uk.teardownSlot = some k →
      (uk.hasTeardownS).1 = kwTruthy k ∧ uk.getTeardown = (k, uk)) ∧
    (uk.setupSlot = none →
      (uk.hasSetupS).1 = false ∧
      ((uk.getSetup).2).setupSlot = some (createFixture none "SETUP") ∧
      (((uk.getSetup).2).hasSetupS).1 = false) ∧
    (uk.teardownSlot = none →
      (uk.hasTeardownS).1 = false ∧
      ((uk.getTeardown).2).teardownSlot = some (createFixture none "TEARDOWN") ∧
      (((uk.getTeardown).2).hasTeardownS).1 = false) := by
  obtain ⟨s, t⟩ := uk
  refine ⟨rfl, rfl, ?_, ?_, ?_, ?_⟩ <;> intros <;>
    simp_all [UKFix.hasSetupS, UKFix.hasTeardownS, UKFix.getSetup, UKFix.getTeardown,
      createFixture, kwTruthy]

/-- Witness for C9 at a concrete input: a keyword without a teardown
reports none; after a `teardown` access the slot holds the empty
fixture yet `has_teardown` still reports false. -/
theorem lazy_fixture_spec_witness :
    ((UKFix.mk none none).hasTeardownS).1 = false ∧
    (((UKFix.mk none none).getTeardown).2).teardownSlot
      = some (createFixture none "TEARDOWN") ∧
    ((((UKFix.mk none none).getTeardown).2).hasTeardownS).1 = false :=
  (lazy_fixture_spec (UKFix.mk none none)).2.2.2.2.2 rfl

end RobotRunning
